import Mathlib

/-!
Fixture generators of tiny-secp256k1 (`scripts/points.cpp`, `scripts/ecdsa.cpp`).

A shallow embedding of the two fixture generators.  Fixed-size byte arrays
(`uint8_t_32`, `uint8_t_33`, `uint8_t_64`, `uint8_t_65`) are lists of bytes of the
given length; `shared.hpp` (constants, primitives, catalogs, random source) is a
record `Lib` that the generators take as a parameter; `assert` aborts the run,
so a generator returns an `Option`; the random source is an explicit state.
-/

namespace TinySecp

set_option maxRecDepth 100000

/-! ## Byte arrays -/

/-- The type `std::array<uint8_t, n>`: exactly `n` bytes. -/
abbrev Arr (n : Nat) := { l : List (Fin 256) // l.length = n }

/-- The type `uint8_t_vec`, a `std::vector<uint8_t>`. -/
abbrev uint8_t_vec := List (Fin 256)

/-- An array whose bytes all equal `b`: `A().fill(b)`, and `A{}` for `b = 0`. -/
def Arr.fill (n : Nat) (b : Fin 256) : Arr n := ⟨List.replicate n b, by simp⟩

/-- The aggregate `A{b}`: first byte `b`, the remaining bytes zero. -/
def Arr.first (n : Nat) (b : Fin 256) : Arr n :=
  ⟨(b :: List.replicate n 0).take n, by simp⟩

/-- The function `vectorify`: the bytes of an array as a vector. -/
def vectorify {n : Nat} (a : Arr n) : uint8_t_vec := a.val

/-- The byte `x ^ mask` stored back into a `uint8_t`. -/
def xorByte (x : Fin 256) (mask : Nat) : Fin 256 :=
  ⟨(x.val ^^^ mask) % 256, Nat.mod_lt _ (by decide)⟩

/-- The statement `a.at(i) ^= mask`; `at` throws when `i` is out of range. -/
def Arr.xorAt {n : Nat} (a : Arr n) (i : Nat) (mask : Nat) : Option (Arr n) :=
  if h : i < a.val.length then
    some ⟨a.val.set i (xorByte (a.val.get ⟨i, h⟩) mask), by simp [a.property]⟩
  else none

/-- The value of a 32-byte scalar, a big-endian integer (section 3 of the
specification). -/
def toNat (s : Arr 32) : Nat := s.val.foldl (fun acc b => acc * 256 + b.val) 0

/-! ## The contents of `shared.hpp` -/

/-- Modelled from the spec: an entry of `generateBadPrivates`, a scalar `d` with a
description (`shared.hpp` is not part of the sources). -/
structure BadPrivate where
  d : Arr 32
  desc : String

/-- Modelled from the spec: an entry of `generateBadPoints<A>`, a buffer `P` with a
description. -/
structure BadPoint (n : Nat) where
  P : Arr n
  desc : String

/-- Modelled from the spec: an entry of `generateBadSignatures`, a 64-byte buffer
`P` with a description. -/
structure BadSignature where
  P : Arr 64
  desc : String

/-- Modelled from the spec: an entry of `generateBadTweaks`, a scalar `d` with a
description. -/
structure BadTweak where
  d : Arr 32
  desc : String

/-- Modelled from the spec: the declarations of `shared.hpp` that the generators use.
A primitive with a `bool& ok` parameter returns its value together with the flag it
leaves in `ok` (section 6 of the specification); a random draw maps the state of the
random source to the drawn value and the next state; the catalogs are pure. -/
structure Lib (σ : Type) where
  ZERO : Arr 32
  ONE : Arr 32
  TWO : Arr 32
  THREE : Arr 32
  GROUP_ORDER_LESS_1 : Arr 32
  GROUP_ORDER_LESS_2 : Arr 32
  GROUP_ORDER_LESS_3 : Arr 32
  UINT256_MAX : Arr 32
  GENERATOR : Arr 65
  GENERATORC : Arr 33
  THROW_BAD_PRIVATE : String
  THROW_BAD_POINT : String
  THROW_BAD_SIGNATURE : String
  THROW_BAD_TWEAK : String
  _pointFromScalar : (n : Nat) → Arr 32 → Arr n × Bool
  _pointFromUInt32 : (n : Nat) → Nat → Arr n × Bool
  _pointAdd : (n : Nat) → Arr n → Arr n → Arr n × Bool
  _pointAddScalar : (n : Nat) → Arr n → Arr 32 → Arr n × Bool
  _privAdd : Arr 32 → Arr 32 → Arr 32 × Bool
  _eccSign : Arr 32 → Arr 32 → Arr 64 × Bool
  _eccVerify : Arr 33 → Arr 32 → Arr 64 → Bool
  _signatureFromRS : Arr 32 → Arr 32 → Arr 64
  sha256 : String → Arr 32
  scalarFromHex : String → Arr 32
  randomPrivate : σ → Arr 32 × σ
  randomScalar : σ → Arr 32 × σ
  randomUInt8 : σ → Fin 256 × σ
  generateBadPrivates : List BadPrivate
  generateBadPoints : (n : Nat) → List (BadPoint n)
  generateBadSignatures : List BadSignature
  generateBadTweaks : List BadTweak

/-! ## Control flow -/

/-- The statement `assert(c)` followed by the rest `k` of the run. -/
def assertThen {α : Type} (c : Bool) (k : Option α) : Option α :=
  if c then k else none

/-- The loop `for (i = 0; i < count; ++i) body(i)` over a state, aborted by the first
failing assertion. -/
def forLoop {S : Type} (body : Nat → S → Option S) : Nat → S → Option S
  | 0, s => some s
  | k + 1, s =>
    match forLoop body k s with
    | none => none
    | some t => body k t

/-! ## `points.cpp` -/

/-- The record `IP<A>`. -/
structure IP (n : Nat) where
  a : Arr n
  e : Bool
  desc : String
deriving DecidableEq

/-- The record `PA<A>`. -/
structure PA (n : Nat) where
  a : Arr n
  b : Arr n
  e : Arr n
  except : String
  desc : String
deriving DecidableEq

/-- The record `PAS<A>`. -/
structure PAS (n : Nat) where
  a : Arr n
  b : Arr 32
  e : Arr n
  except : String
  desc : String
deriving DecidableEq

/-- The record `PFS<A>`. -/
structure PFS (n : Nat) where
  a : Arr 32
  e : Arr n
  except : String
  desc : String
deriving DecidableEq

/-- The record `PC`. -/
structure PC where
  a : uint8_t_vec
  b : Bool
  e : uint8_t_vec
deriving DecidableEq

/-- The local variables of `test_ec_combine` that its loop updates, with the random
source. -/
structure CombineState (σ : Type) (n : Nat) where
  sum : Arr 32
  sumQ : Arr n
  pa : List (PA n)
  pas : List (PAS n)
  pfs : List (PFS n)
  rng : σ

/-- One iteration of the loop of `test_ec_combine`. -/
def combineBody {σ : Type} (L : Lib σ) (n : Nat) (st : CombineState σ n) :
    Option (CombineState σ n) :=
  let d := (L.randomPrivate st.rng).1
  let rng := (L.randomPrivate st.rng).2
  let Q := L._pointFromScalar n d
  assertThen Q.2 <|
  let P := L._pointAdd n st.sumQ Q.1
  assertThen P.2 <|
  let U := L._pointAddScalar n st.sumQ d
  assertThen U.2 <|
  assertThen (decide (P.1 = U.1)) <|
  let sum := L._privAdd st.sum d
  assertThen sum.2 <|
  let R := L._pointFromScalar n sum.1
  assertThen R.2 <|
  assertThen (decide (P.1 = R.1)) <|
  some ⟨sum.1, P.1,
    st.pa ++ [⟨st.sumQ, Q.1, P.1, "", ""⟩],
    st.pas ++ [⟨st.sumQ, d, P.1, "", ""⟩],
    st.pfs ++ [⟨sum.1, P.1, "", ""⟩],
    rng⟩

/-- The function `test_ec_combine<A>`: ten chained iterations appending to the three
lists. -/
def test_ec_combine {σ : Type} (L : Lib σ) (n : Nat)
    (pa : List (PA n)) (pas : List (PAS n)) (pfs : List (PFS n)) (rng : σ) :
    Option (CombineState σ n) :=
  let sumQ := L._pointFromScalar n L.ONE
  assertThen sumQ.2 <|
  forLoop (fun _ st => combineBody L n st) 10 ⟨L.ONE, sumQ.1, pa, pas, pfs, rng⟩

/-- One iteration of the loop of `generatePC`, for `i = k + 1`; `assert(ok)` sees the flag
left by the second call. -/
def pcBody {σ : Type} (L : Lib σ) (k : Nat) (pc : List PC) : Option (List PC) :=
  let iic := L._pointFromUInt32 33 (k + 1)
  let ii := L._pointFromUInt32 65 (k + 1)
  assertThen ii.2 <|
  some (pc ++ [⟨vectorify iic.1, true, vectorify iic.1⟩,
               ⟨vectorify iic.1, false, vectorify ii.1⟩,
               ⟨vectorify ii.1, true, vectorify iic.1⟩,
               ⟨vectorify ii.1, false, vectorify ii.1⟩])

/-- The eight fixtures that `generatePC` pushes before its loop. -/
def pcFixed {σ : Type} (L : Lib σ) : List PC :=
  [⟨vectorify L.GENERATOR, true, vectorify L.GENERATORC⟩,
   ⟨vectorify L.GENERATOR, false, vectorify L.GENERATOR⟩,
   ⟨vectorify L.GENERATORC, true, vectorify L.GENERATORC⟩,
   ⟨vectorify L.GENERATORC, false, vectorify L.GENERATOR⟩,
   ⟨List.replicate 33 0, false, []⟩,
   ⟨List.replicate 33 0, true, []⟩,
   ⟨List.replicate 65 0, false, []⟩,
   ⟨List.replicate 65 0, true, []⟩]

/-- The function `generatePC`. -/
def generatePC {σ : Type} (L : Lib σ) : Option (List PC) :=
  forLoop (pcBody L) 9 (pcFixed L)

/-- One iteration of the random loop of the `isPoint` set in `generate`. -/
def ipBody {σ : Type} (L : Lib σ) (n : Nat) (st : List (IP n) × σ) :
    Option (List (IP n) × σ) :=
  let d := L.randomPrivate st.2
  let p := L._pointFromScalar n d.1
  assertThen p.2 <|
  some (st.1 ++ [⟨p.1, true, ""⟩], d.2)

/-- One iteration of the random loop of the `pointAdd` set in `generate`; `assert(ok)` sees
the flag left by `_pointAdd`. -/
def paBody {σ : Type} (L : Lib σ) (n : Nat) (st : List (PA n) × σ) :
    Option (List (PA n) × σ) :=
  let d1 := L.randomPrivate st.2
  let a := L._pointFromScalar n d1.1
  let d2 := L.randomPrivate d1.2
  let b := L._pointFromScalar n d2.1
  let e := L._pointAdd n a.1 b.1
  assertThen e.2 <|
  some (st.1 ++ [⟨a.1, b.1, e.1, "", ""⟩], d2.2)

/-- One iteration of the loop `for (i = 1; i < 5; ++i)` of the `pointAddScalar` set in
`generate`, for `i = k + 1`. -/
def pasBody {σ : Type} (L : Lib σ) (n : Nat) (k : Nat) (pas : List (PAS n)) :
    Option (List (PAS n)) :=
  let G_i := L._pointFromUInt32 n (k + 1)
  assertThen G_i.2 <|
  let G_i_p1 := L._pointFromUInt32 n (k + 1 + 1)
  assertThen G_i_p1.2 <|
  some (pas ++ [⟨G_i.1, L.ONE, G_i_p1.1, "", ""⟩])

/-- The tuple `(ip, pa, paf, pas, pasf, pfs, pfsf)` returned by `generate`. -/
structure Gen (n : Nat) where
  ip : List (IP n)
  pa : List (PA n)
  paf : List (PA n)
  pas : List (PAS n)
  pasf : List (PAS n)
  pfs : List (PFS n)
  pfsf : List (PFS n)

/-- The local constant `G_LESS_1` of `generate`. -/
def G_LESS_1 {σ : Type} (L : Lib σ) (n : Nat) : Arr n :=
  (L._pointFromScalar n L.GROUP_ORDER_LESS_1).1

/-- The local constant `G_LESS_2` of `generate`. -/
def G_LESS_2 {σ : Type} (L : Lib σ) (n : Nat) : Arr n :=
  (L._pointFromScalar n L.GROUP_ORDER_LESS_2).1

/-- The local constant `G_LESS_3` of `generate`. -/
def G_LESS_3 {σ : Type} (L : Lib σ) (n : Nat) : Arr n :=
  (L._pointFromScalar n L.GROUP_ORDER_LESS_3).1

/-- The local constant `G_ONE` of `generate` and of `generateBadVerify`. -/
def G_ONE {σ : Type} (L : Lib σ) (n : Nat) : Arr n := (L._pointFromUInt32 n 1).1

/-- The local constant `G_TWO` of `generate`. -/
def G_TWO {σ : Type} (L : Lib σ) (n : Nat) : Arr n := (L._pointFromUInt32 n 2).1

/-- The local constant `G_THREE` of `generate`. -/
def G_THREE {σ : Type} (L : Lib σ) (n : Nat) : Arr n := (L._pointFromUInt32 n 3).1

/-- The local `NULLQ` of `generate`: `A()` filled with `0xff`. -/
def NULLQ (n : Nat) : Arr n := Arr.fill n 0xff

/-- The fixtures that `generate` pushes on `ip` one by one (lines 91 to 97). -/
def ipFixed {σ : Type} (L : Lib σ) (n : Nat) (G : Arr n) : List (IP n) :=
  [⟨G, true, ""⟩,
   ⟨Arr.first n 0x2, false, ""⟩,
   ⟨Arr.first n 0x3, false, ""⟩,
   ⟨Arr.first n 0x4, false, ""⟩,
   ⟨G_ONE L n, true, ""⟩,
   ⟨G_TWO L n, true, ""⟩,
   ⟨G_THREE L n, true, ""⟩]

/-- The fixtures that `generate` pushes on `pa` one by one (lines 111 to 121). -/
def paFixed {σ : Type} (L : Lib σ) (n : Nat) (G : Arr n) : List (PA n) :=
  [⟨G_LESS_1 L n, G_LESS_1 L n, G_LESS_2 L n, "", ""⟩,
   ⟨G_LESS_1 L n, G_LESS_2 L n, G_LESS_3 L n, "", ""⟩,
   ⟨G_LESS_1 L n, G_LESS_2 L n, G_LESS_3 L n, "", ""⟩,
   ⟨G_ONE L n, G_LESS_1 L n, NULLQ n, "", ""⟩,
   ⟨G_ONE L n, G_LESS_2 L n, G_LESS_1 L n, "", ""⟩,
   ⟨G_TWO L n, G_LESS_1 L n, G_ONE L n, "", ""⟩,
   ⟨G_ONE L n, G, NULLQ n, "", ""⟩,
   ⟨G_ONE L n, G_ONE L n, G_TWO L n, "", ""⟩,
   ⟨G_ONE L n, G_TWO L n, G_THREE L n, "", ""⟩]

/-- The vector `paf` of `generate` (lines 131 to 135); `{}` is the zero array. -/
def pafAll {σ : Type} (L : Lib σ) (n : Nat) : List (PA n) :=
  (L.generateBadPoints n).foldl (fun paf x =>
    (paf ++ [⟨x.P, G_ONE L n, Arr.fill n 0, L.THROW_BAD_POINT, x.desc⟩])
      ++ [⟨G_ONE L n, x.P, Arr.fill n 0, L.THROW_BAD_POINT, x.desc⟩]) []

/-- The fixtures that `generate` pushes on `pas` one by one (lines 141 to 153). -/
def pasFixed {σ : Type} (L : Lib σ) (n : Nat) : List (PAS n) :=
  [⟨G_LESS_1 L n, L.ZERO, G_LESS_1 L n, "", ""⟩,
   ⟨G_LESS_1 L n, L.ONE, NULLQ n, "", "Adds to infinity"⟩,
   ⟨G_LESS_1 L n, L.TWO, G_ONE L n, "", ""⟩,
   ⟨G_LESS_1 L n, L.THREE, G_TWO L n, "", ""⟩,
   ⟨G_LESS_1 L n, L.GROUP_ORDER_LESS_1, G_LESS_2 L n, "", ""⟩,
   ⟨G_LESS_1 L n, L.GROUP_ORDER_LESS_2, G_LESS_3 L n, "", ""⟩,
   ⟨G_LESS_1 L n, L.GROUP_ORDER_LESS_2, G_LESS_3 L n, "", ""⟩,
   ⟨G_LESS_2 L n, L.ONE, G_LESS_1 L n, "", ""⟩,
   ⟨G_LESS_2 L n, L.TWO, NULLQ n, "", "Adds to infinity"⟩,
   ⟨G_LESS_2 L n, L.THREE, G_ONE L n, "", ""⟩,
   ⟨G_ONE L n, L.GROUP_ORDER_LESS_1, NULLQ n, "", "Adds to infinity"⟩,
   ⟨G_ONE L n, L.GROUP_ORDER_LESS_2, G_LESS_1 L n, "", "== G - 1"⟩,
   ⟨G_TWO L n, L.GROUP_ORDER_LESS_1, G_ONE L n, "", "== 1"⟩]

/-- The vector `pasf` of `generate` (lines 155 to 158). -/
def pasfAll {σ : Type} (L : Lib σ) (n : Nat) : List (PAS n) :=
  L.generateBadTweaks.foldl (fun pasf x =>
      pasf ++ [⟨G_ONE L n, x.d, Arr.fill n 0, L.THROW_BAD_TWEAK, x.desc⟩])
    ((L.generateBadPoints n).foldl (fun pasf x =>
      pasf ++ [⟨x.P, L.ONE, Arr.fill n 0, L.THROW_BAD_POINT, x.desc⟩]) [])

/-- The fixtures that `generate` pushes on `pfs` one by one (lines 170 to 175). -/
def pfsFixed {σ : Type} (L : Lib σ) (n : Nat) : List (PFS n) :=
  [⟨L.ONE, G_ONE L n, "", ""⟩,
   ⟨L.TWO, G_TWO L n, "", ""⟩,
   ⟨L.THREE, G_THREE L n, "", ""⟩,
   ⟨L.GROUP_ORDER_LESS_1, G_LESS_1 L n, "", ""⟩,
   ⟨L.GROUP_ORDER_LESS_2, G_LESS_2 L n, "", ""⟩,
   ⟨L.GROUP_ORDER_LESS_3, G_LESS_3 L n, "", ""⟩]

/-- The vector `pfsf` of `generate` (lines 177 to 179). -/
def pfsfAll {σ : Type} (L : Lib σ) (n : Nat) : List (PFS n) :=
  L.generateBadPrivates.foldl (fun pfsf x =>
    pfsf ++ [⟨x.d, Arr.fill n 0, L.THROW_BAD_PRIVATE, x.desc⟩]) []

/-- The function `generate<A>`, for `A` the arrays of `n` bytes; the result comes with
the state in which it leaves the random source.  The six points `G_LESS_1` .. `G_THREE`
are computed first and `assert(ok)` then sees the flag of the last of them. -/
def generate {σ : Type} (L : Lib σ) (n : Nat) (G : Arr n) (rng : σ) : Option (Gen n × σ) :=
  assertThen (L._pointFromUInt32 n 3).2 <|
  -- isPoint
  let ip := (L.generateBadPoints n).foldl (fun ip x => ip ++ [⟨x.P, false, x.desc⟩])
    (ipFixed L n G)
  (forLoop (fun _ st => ipBody L n st) 100 (ip, rng)).bind fun s1 =>
  -- pointAdd
  (forLoop (fun _ st => paBody L n st) 100 (paFixed L n G, s1.2)).bind fun s2 =>
  -- pointAddScalar
  (forLoop (pasBody L n) 4 (pasFixed L n)).bind fun pas =>
  -- pointFromScalar, test_ec_combine
  (test_ec_combine L n s2.1 pas (pfsFixed L n) s2.2).bind fun c =>
  some (⟨s1.1, c.pa, pafAll L n, c.pas, pasfAll L n, c.pfs, pfsfAll L n⟩, c.rng)

/-! ## `ecdsa.cpp` -/

/-- The vector `fkeys`. -/
def fkeys : List String :=
  ["0000000000000000000000000000000000000000000000000000000000000001",
   "fffffffffffffffffffffffffffffffebaaedce6af48a03bbfd25e8cd0364140",
   "fffffffffffffffffffffffffffffffebaaedce6af48a03bbfd25e8cd0364140",
   "0000000000000000000000000000000000000000000000000000000000000001",
   "69ec59eaa1f4f2e36b639716b7c30ca86d9a5375c7b38d8918bd9c0ebc80ba64",
   "00000000000000000000000000007246174ab1e92e9149c6e446fe194d072637",
   "000000000000000000000000000000000000000000056916d0f9b31dc9b637f3"]

/-- The vector `messages`. -/
def messages : List String :=
  ["Everything should be made as simple as possible, but not simpler.",
   "Equations are more important to me, because politics is for the present, but an equation is something for eternity.",
   "Not only is the Universe stranger than we think, it is stranger than we can think.",
   "How wonderful that we have met with a paradox. Now we have some hope of making progress.",
   "Computer science is no more about computers than astronomy is about telescopes.",
   "...if you aren't, at any given time, scandalized by code you wrote five or even three years ago, you're not learning anywhere near enough",
   "The question of whether computers can think is like the question of whether submarines can swim."]

/-- The record `S`; `v` is `true` unless given. -/
structure S where
  d : Arr 32
  m : Arr 32
  e : Arr 64
  desc : String
  v : Bool
deriving DecidableEq

/-- A range-based `for` loop over a vector, aborted by the first failing step. -/
def forEach {T β : Type} (body : T → β → Option T) : List β → T → Option T
  | [], t => some t
  | x :: xs, t =>
    match body t x with
    | none => none
    | some u => forEach body xs u

/-- One iteration of the first loop of `generateSigns`; the state is the index `i`
and the vector `s`, and `fkeys[i++]` has no value outside the vector. -/
def fixedBody {σ : Type} (L : Lib σ) (st : Nat × List S) (message : String) :
    Option (Nat × List S) :=
  match fkeys.get? st.1 with
  | none => none
  | some k =>
    let fkey := L.scalarFromHex k
    let hash := L.sha256 message
    let sig := L._eccSign fkey hash
    some (st.1 + 1, st.2 ++ [⟨fkey, hash, sig.1, message, true⟩])

/-- One iteration of the second loop of `generateSigns`. -/
def randomBody {σ : Type} (L : Lib σ) (st : List S × σ) (message : String) : List S × σ :=
  let rkey := L.randomPrivate st.2
  let hash := L.sha256 message
  let sig := L._eccSign rkey.1 hash
  (st.1 ++ [⟨rkey.1, hash, sig.1, message, true⟩], rkey.2)

/-- One iteration of the fuzz loop of `generateSigns`; `assert(ok)` sees the flag left by
`_pointFromScalar`, which `verified` then copies. -/
def fuzzBody {σ : Type} (L : Lib σ) (st : List S × σ) : Option (List S × σ) :=
  let rkey := L.randomPrivate st.2
  let hash := L.randomScalar rkey.2
  let sig := L._eccSign rkey.1 hash.1
  let P := L._pointFromScalar 33 rkey.1
  assertThen P.2 <|
  let verified := P.2
  assertThen (L._eccVerify P.1 hash.1 sig.1 == verified) <|
  let r1 := L.randomUInt8 hash.2
  if r1.1.val > 0x7f then
    let r2 := L.randomUInt8 r1.2
    let mask := 1 <<< (1 + r2.1.val % 6)
    let r3 := L.randomUInt8 r2.2
    match sig.1.xorAt (r3.1.val % 32) mask with
    | none => none
    | some sig1 =>
      assertThen (L._eccVerify P.1 hash.1 sig1 == false) <|
      some (st.1 ++ [⟨rkey.1, hash.1, sig1, "", false⟩], r3.2)
  else
    some (st.1 ++ [⟨rkey.1, hash.1, sig.1, "", verified⟩], r1.2)

/-- The function `generateSigns`; the result comes with the state in which it leaves
the random source. -/
def generateSigns {σ : Type} (L : Lib σ) (rng : σ) : Option (List S × σ) :=
  (forEach (fixedBody L) messages (0, [])).bind fun s0 =>
  let s1 := messages.foldl (randomBody L) (s0.2, rng)
  let s := s1.1
  let s := s ++ [⟨L.ONE, L.ZERO, (L._eccSign L.ONE L.ZERO).1, "Strange hash", true⟩]
  let s := s ++ [⟨L.ONE, L.UINT256_MAX, (L._eccSign L.ONE L.UINT256_MAX).1, "Strange hash", true⟩]
  let s := s ++ [⟨L.GROUP_ORDER_LESS_1, L.ZERO,
    (L._eccSign L.GROUP_ORDER_LESS_1 L.ZERO).1, "Stange hash", true⟩]
  let s := s ++ [⟨L.GROUP_ORDER_LESS_1, L.UINT256_MAX,
    (L._eccSign L.GROUP_ORDER_LESS_1 L.UINT256_MAX).1, "Strange hash", true⟩]
  forLoop (fun _ st => fuzzBody L st) 10000 (s, s1.2)

/-- The record `BS`. -/
structure BS where
  d : Arr 32
  m : Arr 32
  except : String
  desc : String
deriving DecidableEq

/-- The function `generateBadSigns`. -/
def generateBadSigns {σ : Type} (L : Lib σ) : List BS :=
  L.generateBadPrivates.foldl (fun bs x => bs ++ [⟨x.d, L.ONE, L.THROW_BAD_PRIVATE, x.desc⟩]) []

/-- The record `BV<A>`. -/
structure BV (n : Nat) where
  Q : Arr n
  m : Arr 32
  s : Arr 64
  except : String
  desc : String
deriving DecidableEq

/-- The function `generateBadVerify<A>`. -/
def generateBadVerify {σ : Type} (L : Lib σ) (n : Nat) : Option (List (BV n)) :=
  let G_ONE := L._pointFromUInt32 n 1
  assertThen G_ONE.2 <|
  let bv : List (BV n) := (L.generateBadPoints n).foldl (fun bv x =>
    bv ++ [⟨x.P, L.THREE, L._signatureFromRS L.ONE L.ONE, L.THROW_BAD_POINT, x.desc⟩]) []
  let bv := L.generateBadSignatures.foldl (fun bv x =>
    bv ++ [⟨G_ONE.1, L.THREE, x.P, L.THROW_BAD_SIGNATURE, x.desc⟩]) bv
  some bv

/-! ## Auxiliary definitions -/

/-- The state after one iteration of `test_ec_combine` that passes its assertions. -/
def combineNext {σ : Type} (L : Lib σ) (n : Nat) (st : CombineState σ n) : CombineState σ n :=
  ⟨(L._privAdd st.sum (L.randomPrivate st.rng).1).1,
   (L._pointAdd n st.sumQ (L._pointFromScalar n (L.randomPrivate st.rng).1).1).1,
   st.pa ++ [⟨st.sumQ, (L._pointFromScalar n (L.randomPrivate st.rng).1).1,
     (L._pointAdd n st.sumQ (L._pointFromScalar n (L.randomPrivate st.rng).1).1).1, "", ""⟩],
   st.pas ++ [⟨st.sumQ, (L.randomPrivate st.rng).1,
     (L._pointAdd n st.sumQ (L._pointFromScalar n (L.randomPrivate st.rng).1).1).1, "", ""⟩],
   st.pfs ++ [⟨(L._privAdd st.sum (L.randomPrivate st.rng).1).1,
     (L._pointAdd n st.sumQ (L._pointFromScalar n (L.randomPrivate st.rng).1).1).1, "", ""⟩],
   (L.randomPrivate st.rng).2⟩

/-! ## A model of the primitive library -/

/-- The primitive library computes scalar multiples of the generator in a cyclic group of
order `N`: `mulG k` is the encoding of `k*G` for `0 < k < N`, distinct for distinct `k`
and never the all-`0xff` buffer, and the scalar constants have their nominal values. -/
structure ScalarMulModel {σ : Type} (L : Lib σ) (n : Nat) (N : Nat) (mulG : Nat → Arr n) :
    Prop where
  order_gt : 5 < N
  zero_val : toNat L.ZERO = 0
  one_val : toNat L.ONE = 1
  two_val : toNat L.TWO = 2
  three_val : toNat L.THREE = 3
  less_1_val : toNat L.GROUP_ORDER_LESS_1 = N - 1
  less_2_val : toNat L.GROUP_ORDER_LESS_2 = N - 2
  less_3_val : toNat L.GROUP_ORDER_LESS_3 = N - 3
  fromScalar : ∀ s : Arr 32, 0 < toNat s → toNat s < N →
    L._pointFromScalar n s = (mulG (toNat s), true)
  fromUInt32 : ∀ i : Nat, 0 < i → i < N → L._pointFromUInt32 n i = (mulG i, true)
  mulG_inj : ∀ a b : Nat, 0 < a → a < N → 0 < b → b < N → mulG a = mulG b → a = b
  mulG_ne_null : ∀ a : Nat, 0 < a → a < N → mulG a ≠ Arr.fill n 0xff

/-- The primitive library is a correct model of the cyclic group of order `N` generated by
`G`: on top of `ScalarMulModel`, `pointAdd` is the group law, with the all-`0xff` buffer
for infinity exactly when the scalars sum to `0` modulo `N`. -/
structure GroupModel {σ : Type} (L : Lib σ) (n : Nat) (N : Nat) (mulG : Nat → Arr n) :
    Prop where
  scalarMul : ScalarMulModel L n N mulG
  add : ∀ a b : Nat, 0 < a → a < N → 0 < b → b < N →
    L._pointAdd n (mulG a) (mulG b)
      = (if (a + b) % N = 0 then Arr.fill n 0xff else mulG ((a + b) % N), true)

/-! ## A small concrete library

The cyclic group of order 251 with one-byte scalars, used to run the generators. -/

/-- The 32-byte big-endian scalar of value `k % 256`. -/
def ofNat32 (k : Nat) : Arr 32 :=
  ⟨List.replicate 31 0 ++ [⟨k % 256, Nat.mod_lt _ (by decide)⟩], by simp⟩

/-- The encoding of `k*G` in the small library: every byte is `k % 251 + 1`. -/
def toyMulG (n : Nat) (k : Nat) : Arr n :=
  Arr.fill n ⟨k % 251 + 1, by omega⟩

/-- The multiple of `G` that a buffer of the small library encodes. -/
def toyDec {n : Nat} (a : Arr n) : Nat := ((a.val.headD 0).val + 250) % 251

/-- The sum of two encoded points in the small library. -/
def toyAdd (n : Nat) (k : Nat) : Arr n × Bool :=
  (if k % 251 = 0 then Arr.fill n 0xff else toyMulG n (k % 251), true)

/-- The signature of the small library: 32 bytes of the public key, then the hash. -/
def toySig (P : Arr 33) (m : Arr 32) : Arr 64 :=
  ⟨P.val.take 32 ++ m.val, by simp [P.property, m.property]⟩

/-- The small library. -/
def toyLib : Lib Nat where
  ZERO := ofNat32 0
  ONE := ofNat32 1
  TWO := ofNat32 2
  THREE := ofNat32 3
  GROUP_ORDER_LESS_1 := ofNat32 250
  GROUP_ORDER_LESS_2 := ofNat32 249
  GROUP_ORDER_LESS_3 := ofNat32 248
  UINT256_MAX := Arr.fill 32 0xff
  GENERATOR := toyMulG 65 1
  GENERATORC := toyMulG 33 1
  THROW_BAD_PRIVATE := "Expected Private"
  THROW_BAD_POINT := "Expected Point"
  THROW_BAD_SIGNATURE := "Expected Signature"
  THROW_BAD_TWEAK := "Expected Tweak"
  _pointFromScalar := fun n s => (toyMulG n (toNat s), decide (0 < toNat s ∧ toNat s < 251))
  _pointFromUInt32 := fun n i => (toyMulG n i, decide (0 < i ∧ i < 251))
  _pointAdd := fun n a b => toyAdd n (toyDec a + toyDec b)
  _pointAddScalar := fun n a d => toyAdd n (toyDec a + toNat d)
  _privAdd := fun a b => (ofNat32 ((toNat a + toNat b) % 251), true)
  _eccSign := fun d m => (toySig (toyMulG 33 (toNat d)) m, true)
  _eccVerify := fun P m sig => decide (sig = toySig P m)
  _signatureFromRS := fun r s => ⟨r.val ++ s.val, by simp [r.property, s.property]⟩
  sha256 := fun msg => ofNat32 msg.length
  scalarFromHex := fun hex => ofNat32 (hex.toList.getLastD '0').toNat
  randomPrivate := fun r => (ofNat32 (r % 5 + 1), r + 1)
  randomScalar := fun r => (ofNat32 (r * 7 + 3), r + 1)
  randomUInt8 := fun r => (⟨(r * 77 + 130) % 256, Nat.mod_lt _ (by decide)⟩, r + 1)
  generateBadPrivates := [⟨ofNat32 0, "Private key == 0"⟩, ⟨ofNat32 251, "Private key >= G"⟩]
  generateBadPoints := fun n => [⟨Arr.fill n 0, "Bad first byte"⟩, ⟨Arr.fill n 0xfe, "Bad X"⟩]
  generateBadSignatures := [⟨Arr.fill 64 0, "Invalid r, s values (== 0)"⟩]
  generateBadTweaks := [⟨ofNat32 251, "Tweak >= G"⟩]

/-! ## The draws of one fuzz iteration

The local variables of one iteration of the fuzz loop of `generateSigns`, as functions of
the state `r` in which the iteration finds the random source. -/

/-- The private key `rkey` drawn by the iteration. -/
def fuzzKey {σ : Type} (L : Lib σ) (r : σ) : Arr 32 := (L.randomPrivate r).1

/-- The hash `hash` drawn by the iteration. -/
def fuzzHash {σ : Type} (L : Lib σ) (r : σ) : Arr 32 :=
  (L.randomScalar (L.randomPrivate r).2).1

/-- The signature `sig` as `_eccSign` returns it, before any corruption. -/
def fuzzSig {σ : Type} (L : Lib σ) (r : σ) : Arr 64 :=
  (L._eccSign (fuzzKey L r) (fuzzHash L r)).1

/-- The first random byte, compared with `0x7f`. -/
def fuzzByte1 {σ : Type} (L : Lib σ) (r : σ) : Fin 256 :=
  (L.randomUInt8 (L.randomScalar (L.randomPrivate r).2).2).1

/-- The second random byte, which selects the bit. -/
def fuzzByte2 {σ : Type} (L : Lib σ) (r : σ) : Fin 256 :=
  (L.randomUInt8 (L.randomUInt8 (L.randomScalar (L.randomPrivate r).2).2).2).1

/-- The third random byte, which selects the byte of the signature. -/
def fuzzByte3 {σ : Type} (L : Lib σ) (r : σ) : Fin 256 :=
  (L.randomUInt8 (L.randomUInt8 (L.randomUInt8
    (L.randomScalar (L.randomPrivate r).2).2).2).2).1

/-- Bit `t` of byte `j` of an array (`false` outside the array). -/
def Arr.bit {n : Nat} (a : Arr n) (j t : Nat) : Bool := (a.val.getD j 0).val.testBit t

/-! ## The deterministic part of `generateSigns` -/

/-- The fixture that the first loop of `generateSigns` builds from a key and a message. -/
def fixedFixture {σ : Type} (L : Lib σ) (k msg : String) : S :=
  ⟨L.scalarFromHex k, L.sha256 msg, (L._eccSign (L.scalarFromHex k) (L.sha256 msg)).1, msg, true⟩

/-- The state after one iteration of the random `isPoint` loop that passes its
assertion. -/
def ipNext {σ : Type} (L : Lib σ) (n : Nat) (st : List (IP n) × σ) : List (IP n) × σ :=
  (st.1 ++ [⟨(L._pointFromScalar n (L.randomPrivate st.2).1).1, true, ""⟩],
   (L.randomPrivate st.2).2)

/-- The four fixtures that the loop `for (i = 1; i < 5; ++i)` of `generate` pushes on
`pas`. -/
def pasLoop {σ : Type} (L : Lib σ) (n : Nat) : List (PAS n) :=
  (List.range 4).map (fun k =>
    (⟨(L._pointFromUInt32 n (k + 1)).1, L.ONE, (L._pointFromUInt32 n (k + 1 + 1)).1, "", ""⟩ :
      PAS n))

/-- The two encodings of the points that `generatePC` handles: `c q` is the compressed and
`u q` the uncompressed encoding of the point `q`, a point is determined by either of its
encodings, no encoding is an all-zero buffer, `GENERATORC` and `GENERATOR` are the two
encodings of one point `g`, and `pointFromUInt32` succeeds for `i = 1..9` with the two
encodings of one point `p i`. -/
structure EncodingModel {σ : Type} (L : Lib σ) {Pt : Type} (c : Pt → Arr 33) (u : Pt → Arr 65)
    (g : Pt) (p : Nat → Pt) : Prop where
  c_inj : ∀ a b : Pt, c a = c b → a = b
  u_inj : ∀ a b : Pt, u a = u b → a = b
  c_ne_zero : ∀ a : Pt, c a ≠ Arr.fill 33 0
  u_ne_zero : ∀ a : Pt, u a ≠ Arr.fill 65 0
  generatorc : L.GENERATORC = c g
  generator : L.GENERATOR = u g
  fromUInt32_c : ∀ i : Nat, 1 ≤ i → i ≤ 9 → L._pointFromUInt32 33 i = (c (p i), true)
  fromUInt32_u : ∀ i : Nat, 1 ≤ i → i ≤ 9 → L._pointFromUInt32 65 i = (u (p i), true)

/-- The four `pointCompress` fixtures of one point, given its two encodings. -/
def pcFour (x : Arr 33) (y : Arr 65) : List PC :=
  [⟨vectorify x, true, vectorify x⟩,
   ⟨vectorify x, false, vectorify y⟩,
   ⟨vectorify y, true, vectorify x⟩,
   ⟨vectorify y, false, vectorify y⟩]

/-! ## General facts about the control flow -/

theorem assertThen_eq_some {α : Type} (c : Bool) (k : Option α) (x : α) :
    assertThen c k = some x ↔ c = true ∧ k = some x := by
  unfold assertThen
  cases c <;> simp

theorem assertThen_true {α : Type} (k : Option α) : assertThen true k = k := rfl

/-- A loop whose body, when it does not abort, moves the state by `next`, ends after `k`
rounds in `next^[k]`, and every round ran without aborting. -/
theorem forLoop_eq_some_iterate {T : Type} (body : Nat → T → Option T) (next : T → T)
    (hb : ∀ i s t, body i s = some t → t = next s) :
    ∀ (k : Nat) (s t : T), forLoop body k s = some t →
      t = next^[k] s ∧ ∀ j, j < k → body j (next^[j] s) = some (next^[j + 1] s) := by
  intro k
  induction k with
  | zero =>
    intro s t h
    simp only [forLoop, Option.some.injEq] at h
    exact ⟨by simp [h], fun j hj => absurd hj (Nat.not_lt_zero j)⟩
  | succ k ih =>
    intro s t h
    simp only [forLoop] at h
    cases hk : forLoop body k s with
    | none => rw [hk] at h; exact absurd h (by simp)
    | some u =>
      rw [hk] at h
      obtain ⟨hu, hprev⟩ := ih s u hk
      have ht : t = next u := hb k u t h
      refine ⟨by rw [ht, hu, Function.iterate_succ_apply'], ?_⟩
      intro j hj
      rcases Nat.lt_succ_iff_lt_or_eq.mp hj with hlt | heq
      · exact hprev j hlt
      · subst heq
        rw [Function.iterate_succ_apply', ← hu, ← ht]
        exact h

/-- A loop all of whose rounds run without aborting returns a state. -/
theorem forLoop_isSome {T : Type} (body : Nat → T → Option T)
    (hb : ∀ i s, (body i s).isSome = true) :
    ∀ (k : Nat) (s : T), (forLoop body k s).isSome = true := by
  intro k
  induction k with
  | zero => intro s; rfl
  | succ k ih =>
    intro s
    simp only [forLoop]
    have h := ih s
    cases hk : forLoop body k s with
    | none => rw [hk] at h; exact absurd h (by simp)
    | some u => exact hb k u

theorem foldl_push_one {α β : Type} (f : β → α) (xs : List β) (init : List α) :
    xs.foldl (fun acc x => acc ++ [f x]) init = init ++ xs.map f := by
  induction xs generalizing init with
  | nil => simp
  | cons x xs ih => simp [List.foldl, ih]

theorem foldl_push_two {α β : Type} (f g : β → α) (xs : List β) (init : List α) :
    xs.foldl (fun acc x => (acc ++ [f x]) ++ [g x]) init
      = init ++ xs.flatMap (fun x => [f x, g x]) := by
  induction xs generalizing init with
  | nil => simp
  | cons x xs ih =>
    rw [List.foldl_cons, ih]
    simp

/-! ## `test_ec_combine` -/

theorem combineBody_eq_some {σ : Type} (L : Lib σ) (n : Nat) (st t : CombineState σ n)
    (h : combineBody L n st = some t) :
    t = combineNext L n st ∧
    (L._pointAdd n st.sumQ (L._pointFromScalar n (L.randomPrivate st.rng).1).1).1
      = (L._pointAddScalar n st.sumQ (L.randomPrivate st.rng).1).1 ∧
    (L._pointAdd n st.sumQ (L._pointFromScalar n (L.randomPrivate st.rng).1).1).1
      = (L._pointFromScalar n (L._privAdd st.sum (L.randomPrivate st.rng).1).1).1 := by
  simp only [combineBody, assertThen_eq_some, decide_eq_true_eq, Option.some.injEq] at h
  obtain ⟨-, -, -, hU, -, -, hR, ht⟩ := h
  exact ⟨ht.symm, hU, hR⟩

theorem combine_iter_rng {σ : Type} (L : Lib σ) (n : Nat) (init : CombineState σ n) (k : Nat) :
    ((combineNext L n)^[k] init).rng = (fun r => (L.randomPrivate r).2)^[k] init.rng := by
  induction k with
  | zero => rfl
  | succ k ih =>
    rw [Function.iterate_succ_apply', Function.iterate_succ_apply', ← ih]
    rfl

theorem combine_iter_pa {σ : Type} (L : Lib σ) (n : Nat) (init : CombineState σ n) (k : Nat) :
    ((combineNext L n)^[k] init).pa = init.pa ++ (List.range k).map (fun i =>
      (⟨((combineNext L n)^[i] init).sumQ,
        (L._pointFromScalar n (L.randomPrivate ((combineNext L n)^[i] init).rng).1).1,
        ((combineNext L n)^[i + 1] init).sumQ, "", ""⟩ : PA n)) := by
  induction k with
  | zero => simp
  | succ k ih =>
    rw [List.range_succ, List.map_append, ← List.append_assoc, ← ih]
    simp only [List.map_cons, List.map_nil, Function.iterate_succ_apply']
    rfl

theorem combine_iter_pas {σ : Type} (L : Lib σ) (n : Nat) (init : CombineState σ n) (k : Nat) :
    ((combineNext L n)^[k] init).pas = init.pas ++ (List.range k).map (fun i =>
      (⟨((combineNext L n)^[i] init).sumQ,
        (L.randomPrivate ((combineNext L n)^[i] init).rng).1,
        ((combineNext L n)^[i + 1] init).sumQ, "", ""⟩ : PAS n)) := by
  induction k with
  | zero => simp
  | succ k ih =>
    rw [List.range_succ, List.map_append, ← List.append_assoc, ← ih]
    simp only [List.map_cons, List.map_nil, Function.iterate_succ_apply']
    rfl

theorem combine_iter_pfs {σ : Type} (L : Lib σ) (n : Nat) (init : CombineState σ n) (k : Nat) :
    ((combineNext L n)^[k] init).pfs = init.pfs ++ (List.range k).map (fun i =>
      (⟨((combineNext L n)^[i + 1] init).sum,
        ((combineNext L n)^[i + 1] init).sumQ, "", ""⟩ : PFS n)) := by
  induction k with
  | zero => simp
  | succ k ih =>
    rw [List.range_succ, List.map_append, ← List.append_assoc, ← ih]
    simp only [List.map_cons, List.map_nil, Function.iterate_succ_apply']
    rfl

/-- What a run of `test_ec_combine` that passes its assertions leaves behind, in terms of
the iterates of `combineNext`. -/
theorem test_ec_combine_eq_some {σ : Type} (L : Lib σ) (n : Nat)
    (pa : List (PA n)) (pas : List (PAS n)) (pfs : List (PFS n)) (rng : σ)
    (st : CombineState σ n) (h : test_ec_combine L n pa pas pfs rng = some st) :
    st = (combineNext L n)^[10] ⟨L.ONE, (L._pointFromScalar n L.ONE).1, pa, pas, pfs, rng⟩ ∧
    ∀ j, j < 10 →
      combineBody L n ((combineNext L n)^[j] ⟨L.ONE, (L._pointFromScalar n L.ONE).1, pa, pas, pfs, rng⟩)
        = some ((combineNext L n)^[j + 1]
            ⟨L.ONE, (L._pointFromScalar n L.ONE).1, pa, pas, pfs, rng⟩) := by
  simp only [test_ec_combine, assertThen_eq_some] at h
  exact forLoop_eq_some_iterate (fun _ st => combineBody L n st) (combineNext L n)
    (fun _ s t hst => (combineBody_eq_some L n s t hst).1) 10 _ st h.2

/-! ## C4: the chained homomorphism check -/

/-- C4: a run of `test_ec_combine` that passes its assertions appends exactly ten fixtures
to each of the three lists, after their earlier elements and in iteration order.  With
`d k` the `k`-th random private key, `sum 0 = ONE`, `sumQ 1 = pointFromScalar(ONE)`, for
`k = 1..10`: `sum k = privAdd(sum (k-1), d k)`,
`P k = pointAdd(sumQ k, pointFromScalar(d k)) = pointAddScalar(sumQ k, d k)
= pointFromScalar(sum k)`, `sumQ (k+1) = P k`, and the `k`-th appended fixtures are
`(sumQ k, pointFromScalar(d k), P k)`, `(sumQ k, d k, P k)` and `(sum k, P k)`. -/
theorem test_ec_combine_chain {σ : Type} (L : Lib σ) (n : Nat)
    (pa : List (PA n)) (pas : List (PAS n)) (pfs : List (PFS n)) (rng : σ)
    (st : CombineState σ n) (h : test_ec_combine L n pa pas pfs rng = some st) :
    ∃ (d sum : Nat → Arr 32) (sumQ P : Nat → Arr n),
      sum 0 = L.ONE ∧ sumQ 1 = (L._pointFromScalar n L.ONE).1 ∧
      (∀ k, 1 ≤ k → k ≤ 10 →
        d k = (L.randomPrivate ((fun r => (L.randomPrivate r).2)^[k - 1] rng)).1 ∧
        sum k = (L._privAdd (sum (k - 1)) (d k)).1 ∧
        P k = (L._pointAdd n (sumQ k) (L._pointFromScalar n (d k)).1).1 ∧
        P k = (L._pointAddScalar n (sumQ k) (d k)).1 ∧
        P k = (L._pointFromScalar n (sum k)).1 ∧
        sumQ (k + 1) = P k) ∧
      st.pa = pa ++ (List.range 10).map (fun i =>
        (⟨sumQ (i + 1), (L._pointFromScalar n (d (i + 1))).1, P (i + 1), "", ""⟩ : PA n)) ∧
      st.pas = pas ++ (List.range 10).map (fun i =>
        (⟨sumQ (i + 1), d (i + 1), P (i + 1), "", ""⟩ : PAS n)) ∧
      st.pfs = pfs ++ (List.range 10).map (fun i =>
        (⟨sum (i + 1), P (i + 1), "", ""⟩ : PFS n)) := by
  obtain ⟨hst, hbody⟩ := test_ec_combine_eq_some L n pa pas pfs rng st h
  generalize hinit : (⟨L.ONE, (L._pointFromScalar n L.ONE).1, pa, pas, pfs, rng⟩ :
    CombineState σ n) = init at hst hbody
  have hrng : init.rng = rng := by rw [← hinit]
  refine ⟨fun k => (L.randomPrivate ((combineNext L n)^[k - 1] init).rng).1,
    fun k => ((combineNext L n)^[k] init).sum,
    fun k => ((combineNext L n)^[k - 1] init).sumQ,
    fun k => ((combineNext L n)^[k] init).sumQ, ?_, ?_, ?_, ?_, ?_, ?_⟩
  · rw [← hinit]; rfl
  · rw [← hinit]; rfl
  · intro k hk1 hk10
    obtain ⟨j, rfl⟩ : ∃ j, k = j + 1 := ⟨k - 1, by omega⟩
    have hj : j < 10 := by omega
    obtain ⟨-, hU, hR⟩ := combineBody_eq_some L n _ _ (hbody j hj)
    simp only [Nat.add_sub_cancel, Function.iterate_succ_apply']
    refine ⟨by rw [combine_iter_rng, hrng], rfl, rfl, hU, hR, trivial⟩
  · rw [hst, combine_iter_pa, ← hinit]
    simp only [Nat.add_sub_cancel]
  · rw [hst, combine_iter_pas, ← hinit]
    simp only [Nat.add_sub_cancel]
  · rw [hst, combine_iter_pfs, ← hinit]

/-- C4 on the small library, whose ten iterations from the state 0 of the random source
pass every assertion. -/
theorem test_ec_combine_chain_witness :
    ∃ st, test_ec_combine toyLib 33 [] [] [] 0 = some st ∧
      ∃ (d sum : Nat → Arr 32) (sumQ P : Nat → Arr 33),
        sum 0 = toyLib.ONE ∧ sumQ 1 = (toyLib._pointFromScalar 33 toyLib.ONE).1 ∧
        (∀ k, 1 ≤ k → k ≤ 10 →
          d k = (toyLib.randomPrivate ((fun r => (toyLib.randomPrivate r).2)^[k - 1] 0)).1 ∧
          sum k = (toyLib._privAdd (sum (k - 1)) (d k)).1 ∧
          P k = (toyLib._pointAdd 33 (sumQ k) (toyLib._pointFromScalar 33 (d k)).1).1 ∧
          P k = (toyLib._pointAddScalar 33 (sumQ k) (d k)).1 ∧
          P k = (toyLib._pointFromScalar 33 (sum k)).1 ∧
          sumQ (k + 1) = P k) ∧
        st.pa = [] ++ (List.range 10).map (fun i =>
          (⟨sumQ (i + 1), (toyLib._pointFromScalar 33 (d (i + 1))).1, P (i + 1), "", ""⟩ :
            PA 33)) ∧
        st.pas = [] ++ (List.range 10).map (fun i =>
          (⟨sumQ (i + 1), d (i + 1), P (i + 1), "", ""⟩ : PAS 33)) ∧
        st.pfs = [] ++ (List.range 10).map (fun i =>
          (⟨sum (i + 1), P (i + 1), "", ""⟩ : PFS 33)) := by
  have hs : (test_ec_combine toyLib 33 [] [] [] 0).isSome = true := by decide
  obtain ⟨st, h⟩ := Option.isSome_iff_exists.mp hs
  exact ⟨st, h, test_ec_combine_chain toyLib 33 [] [] [] 0 st h⟩

/-! ## The fuzz loop of `generateSigns` -/

/-- A loop whose body appends one element satisfying `Q` appends `k` such elements. -/
theorem forLoop_append {α τ : Type} (body : Nat → List α × τ → Option (List α × τ))
    (Q : α → Prop)
    (hb : ∀ i st out, body i st = some out → ∃ f, out.1 = st.1 ++ [f] ∧ Q f) :
    ∀ (k : Nat) (st out : List α × τ), forLoop body k st = some out →
      ∃ fs : List α, out.1 = st.1 ++ fs ∧ fs.length = k ∧ ∀ f ∈ fs, Q f := by
  intro k
  induction k with
  | zero =>
    intro st out h
    simp only [forLoop, Option.some.injEq] at h
    exact ⟨[], by simp [h], rfl, by simp⟩
  | succ k ih =>
    intro st out h
    simp only [forLoop] at h
    cases hk : forLoop body k st with
    | none => rw [hk] at h; exact absurd h (by simp)
    | some u =>
      rw [hk] at h
      obtain ⟨fs, hfs, hlen, hQ⟩ := ih st u hk
      obtain ⟨f, hf, hQf⟩ := hb k u out h
      refine ⟨fs ++ [f], by rw [hf, hfs, List.append_assoc], by simp [hlen], ?_⟩
      intro g hg
      rcases List.mem_append.mp hg with hg | hg
      · exact hQ g hg
      · rw [List.mem_singleton.mp hg]; exact hQf

/-- The two ways in which an iteration of the fuzz loop passes its assertions. -/
theorem fuzzBody_eq_some {σ : Type} (L : Lib σ) (st out : List S × σ)
    (h : fuzzBody L st = some out) :
    (L._pointFromScalar 33 (fuzzKey L st.2)).2 = true ∧
    L._eccVerify (L._pointFromScalar 33 (fuzzKey L st.2)).1 (fuzzHash L st.2) (fuzzSig L st.2)
      = true ∧
    ((0x7f < (fuzzByte1 L st.2).val ∧ ∃ sig1 : Arr 64,
        (fuzzSig L st.2).xorAt ((fuzzByte3 L st.2).val % 32)
          (1 <<< (1 + (fuzzByte2 L st.2).val % 6)) = some sig1 ∧
        L._eccVerify (L._pointFromScalar 33 (fuzzKey L st.2)).1 (fuzzHash L st.2) sig1 = false ∧
        out.1 = st.1 ++ [⟨fuzzKey L st.2, fuzzHash L st.2, sig1, "", false⟩]) ∨
     (¬ 0x7f < (fuzzByte1 L st.2).val ∧
        out.1 = st.1 ++ [⟨fuzzKey L st.2, fuzzHash L st.2, fuzzSig L st.2, "", true⟩])) := by
  simp only [fuzzBody, assertThen_eq_some] at h
  obtain ⟨hP, hV, h⟩ := h
  rw [hP] at hV
  have hV1 : L._eccVerify (L._pointFromScalar 33 (fuzzKey L st.2)).1 (fuzzHash L st.2)
      (fuzzSig L st.2) = true := by simpa using hV
  refine ⟨hP, hV1, ?_⟩
  by_cases hb : 0x7f < (fuzzByte1 L st.2).val
  · left
    refine ⟨hb, ?_⟩
    have hb1 : 0x7f < (L.randomUInt8 (L.randomScalar (L.randomPrivate st.2).2).2).1.val := hb
    rw [if_pos hb1] at h
    cases hx : (fuzzSig L st.2).xorAt ((fuzzByte3 L st.2).val % 32)
        (1 <<< (1 + (fuzzByte2 L st.2).val % 6)) with
    | none =>
      have hx1 : (L._eccSign (L.randomPrivate st.2).1 (L.randomScalar (L.randomPrivate st.2).2).1).1.xorAt
          ((L.randomUInt8 (L.randomUInt8 (L.randomUInt8
            (L.randomScalar (L.randomPrivate st.2).2).2).2).2).1.val % 32)
          (1 <<< (1 + (L.randomUInt8 (L.randomUInt8
            (L.randomScalar (L.randomPrivate st.2).2).2).2).1.val % 6)) = none := hx
      rw [hx1] at h
      exact absurd h (by simp)
    | some sig1 =>
      have hx1 : (L._eccSign (L.randomPrivate st.2).1 (L.randomScalar (L.randomPrivate st.2).2).1).1.xorAt
          ((L.randomUInt8 (L.randomUInt8 (L.randomUInt8
            (L.randomScalar (L.randomPrivate st.2).2).2).2).2).1.val % 32)
          (1 <<< (1 + (L.randomUInt8 (L.randomUInt8
            (L.randomScalar (L.randomPrivate st.2).2).2).2).1.val % 6)) = some sig1 := hx
      rw [hx1] at h
      simp only [assertThen_eq_some, Option.some.injEq] at h
      obtain ⟨hF, hout⟩ := h
      refine ⟨sig1, rfl, by simpa using hF, ?_⟩
      rw [← hout]
      rfl
  · right
    refine ⟨hb, ?_⟩
    have hb1 : ¬ 0x7f < (L.randomUInt8 (L.randomScalar (L.randomPrivate st.2).2).2).1.val := hb
    rw [if_neg hb1] at h
    simp only [Option.some.injEq] at h
    rw [← h, hP]
    rfl

/-! ## Flipping one bit of a byte -/

theorem xorByte_testBit (x : Fin 256) (k : Nat) (hk : k ≤ 7) (t : Nat) :
    (xorByte x (1 <<< k)).val.testBit t = (x.val.testBit t ^^ decide (t = k)) := by
  have h256 : (256 : Nat) = 2 ^ 8 := by norm_num
  show ((x.val ^^^ 1 <<< k) % 2 ^ 8).testBit t = _
  rw [Nat.testBit_mod_two_pow, Nat.testBit_xor, Nat.one_shiftLeft, Nat.testBit_two_pow]
  by_cases ht : t < 8
  · simp [ht, eq_comm]
  · have hx : x.val.testBit t = false := by
      apply Nat.testBit_lt_two_pow
      calc x.val < 256 := x.isLt
        _ = 2 ^ 8 := h256
        _ ≤ 2 ^ t := Nat.pow_le_pow_right (by decide) (by omega)
    have hne : ¬ t = k := by omega
    simp [ht, hx, hne]

theorem xorAt_val {n : Nat} (a b : Arr n) (i mask : Nat) (h : a.xorAt i mask = some b) :
    i < a.val.length ∧ b.val = a.val.set i (xorByte (a.val.getD i 0) mask) := by
  unfold Arr.xorAt at h
  by_cases hi : i < a.val.length
  · rw [dif_pos hi] at h
    simp only [Option.some.injEq] at h
    refine ⟨hi, ?_⟩
    rw [← h]
    simp [List.getD_eq_getElem?_getD, List.getElem?_eq_getElem hi]
  · rw [dif_neg hi] at h
    exact absurd h (by simp)

/-- After `a.at(i) ^= 1 << k`, bit `t` of byte `j` is flipped when `j = i` and `t = k` and
unchanged otherwise. -/
theorem xorAt_bit {n : Nat} (a b : Arr n) (i k : Nat) (hk : k ≤ 7)
    (h : a.xorAt i (1 <<< k) = some b) (j t : Nat) :
    b.bit j t = (a.bit j t ^^ decide (j = i ∧ t = k)) := by
  obtain ⟨hi, hb⟩ := xorAt_val a b i _ h
  unfold Arr.bit
  rw [hb]
  by_cases hj : j = i
  · subst hj
    have hget : (a.val.set j (xorByte (a.val.getD j 0) (1 <<< k))).getD j 0
        = xorByte (a.val.getD j 0) (1 <<< k) := by
      have hi2 : j < n := by rw [← a.property]; exact hi
      simp [List.getD_eq_getElem?_getD, List.getElem?_set, hi2]
    rw [hget, xorByte_testBit _ _ hk]
    simp
  · have hget : (a.val.set i (xorByte (a.val.getD i 0) (1 <<< k))).getD j 0
        = a.val.getD j 0 := by
      simp [List.getD_eq_getElem?_getD, List.getElem?_set, Ne.symm hj]
    rw [hget]
    simp [hj]

theorem xorAt_ne {n : Nat} (a b : Arr n) (i k : Nat) (hk : k ≤ 7)
    (h : a.xorAt i (1 <<< k) = some b) : b ≠ a := by
  intro hba
  have hbit := xorAt_bit a b i k hk h i k
  rw [hba] at hbit
  simp at hbit

theorem xorAt_isSome (a : Arr 64) (i mask : Nat) (hi : i < 64) :
    (a.xorAt i mask).isSome = true := by
  unfold Arr.xorAt
  rw [dif_pos (by rw [a.property]; exact hi)]
  rfl

/-- The fixture appended by an iteration of the fuzz loop that passes its assertions, in
terms of the draws of the iteration. -/
theorem fuzzBody_flip {σ : Type} (L : Lib σ) (st out : List S × σ)
    (h : fuzzBody L st = some out) :
    ∃ f : S, out.1 = st.1 ++ [f] ∧ ∃ r : σ, f.d = fuzzKey L r ∧ f.m = fuzzHash L r ∧
      (f.e ≠ (L._eccSign f.d f.m).1 ↔ 0x7f < (fuzzByte1 L r).val) ∧
      (0x7f < (fuzzByte1 L r).val ↔ (fuzzByte1 L r).val.testBit 7 = true) ∧
      (0x7f < (fuzzByte1 L r).val →
        (fuzzByte3 L r).val % 32 < 32 ∧
        1 ≤ 1 + (fuzzByte2 L r).val % 6 ∧ 1 + (fuzzByte2 L r).val % 6 ≤ 6 ∧
        (∀ j t, f.e.bit j t ≠ (L._eccSign f.d f.m).1.bit j t ↔
          (j = (fuzzByte3 L r).val % 32 ∧ t = 1 + (fuzzByte2 L r).val % 6)) ∧
        f.v = false) ∧
      (¬ 0x7f < (fuzzByte1 L r).val → f.e = (L._eccSign f.d f.m).1 ∧ f.v = true) ∧
      (f.v = true ↔ f.e = (L._eccSign f.d f.m).1) := by
  have hhigh : 0x7f < (fuzzByte1 L st.2).val ↔ (fuzzByte1 L st.2).val.testBit 7 = true := by
    have hlt := (fuzzByte1 L st.2).isLt
    rw [Nat.testBit_to_div_mod, decide_eq_true_eq]
    omega
  have hk6 : 1 + (fuzzByte2 L st.2).val % 6 ≤ 6 := by
    have := Nat.mod_lt (fuzzByte2 L st.2).val (show 0 < 6 by decide)
    omega
  obtain ⟨-, -, hcase⟩ := fuzzBody_eq_some L st out h
  rcases hcase with ⟨hb, sig1, hx, -, hout⟩ | ⟨hb, hout⟩
  · have hne : sig1 ≠ fuzzSig L st.2 := xorAt_ne _ _ _ _ (by omega) hx
    refine ⟨_, hout, st.2, rfl, rfl, ⟨fun _ => hb, fun _ => hne⟩, hhigh, ?_, ?_, ?_⟩
    · intro _
      refine ⟨Nat.mod_lt _ (by decide), by omega, hk6, ?_, rfl⟩
      intro j t
      show sig1.bit j t ≠ (fuzzSig L st.2).bit j t ↔ _
      rw [xorAt_bit _ _ _ _ (by omega) hx j t]
      cases (fuzzSig L st.2).bit j t <;> simp
    · intro hnb
      exact absurd hb hnb
    · show (false = true) ↔ sig1 = fuzzSig L st.2
      constructor
      · intro hf; exact absurd hf (by simp)
      · intro he; exact absurd he hne
  · refine ⟨_, hout, st.2, rfl, rfl, ⟨fun hc => absurd rfl hc, fun hc => absurd hc hb⟩, hhigh,
      ?_, fun _ => ⟨rfl, rfl⟩, ⟨fun _ => rfl, fun _ => rfl⟩⟩
    intro hc
    exact absurd hc hb

/-! ## The corpus of `generateSigns` -/

theorem fixed_loop_eq {σ : Type} (L : Lib σ) :
    forEach (fixedBody L) messages (0, [])
      = some (7, List.zipWith (fixedFixture L) fkeys messages) := rfl

theorem random_loop_append {σ : Type} (L : Lib σ) (msgs : List String) (st : List S × σ) :
    ∃ fs : List S, (msgs.foldl (randomBody L) st).1 = st.1 ++ fs ∧
      fs.length = msgs.length ∧ ∀ f ∈ fs, f.v = true := by
  induction msgs generalizing st with
  | nil => exact ⟨[], by simp, rfl, by simp⟩
  | cons m ms ih =>
    obtain ⟨fs, hfs, hlen, hv⟩ := ih (randomBody L st m)
    refine ⟨(⟨(L.randomPrivate st.2).1, L.sha256 m,
      (L._eccSign (L.randomPrivate st.2).1 (L.sha256 m)).1, m, true⟩ : S) :: fs,
      ?_, by simp [hlen], ?_⟩
    · rw [List.foldl_cons, hfs]
      simp only [randomBody, List.append_assoc, List.singleton_append]
    · intro f hf
      rcases List.mem_cons.mp hf with hf | hf
      · rw [hf]
      · exact hv f hf

theorem fuzzBody_verify {σ : Type} (L : Lib σ) (st out : List S × σ)
    (h : fuzzBody L st = some out) :
    ∃ f : S, out.1 = st.1 ++ [f] ∧ L._eccVerify (L._pointFromScalar 33 f.d).1 f.m f.e = f.v := by
  obtain ⟨-, hV, hcase⟩ := fuzzBody_eq_some L st out h
  rcases hcase with ⟨-, sig1, -, hF, hout⟩ | ⟨-, hout⟩
  · exact ⟨_, hout, hF⟩
  · exact ⟨_, hout, hV⟩

/-- The shape of the corpus returned by `generateSigns`: the seven deterministic fixtures,
eleven more with `verifies = true`, then the 10000 fuzz fixtures, each of them with any
property `Q` that an iteration of the fuzz loop gives to the fixture it appends. -/
theorem generateSigns_shape {σ : Type} (L : Lib σ) (Q : S → Prop)
    (hbody : ∀ st out, fuzzBody L st = some out → ∃ f, out.1 = st.1 ++ [f] ∧ Q f)
    (rng : σ) (out : List S × σ) (h : generateSigns L rng = some out) :
    ∃ mid fuzz : List S,
      out.1 = (List.zipWith (fixedFixture L) fkeys messages ++ mid) ++ fuzz ∧
      mid.length = 11 ∧ (∀ f ∈ mid, f.v = true) ∧ fuzz.length = 10000 ∧
      ∀ f ∈ fuzz, Q f := by
  unfold generateSigns at h
  rw [fixed_loop_eq, Option.some_bind] at h
  obtain ⟨fs, hfs, hlen, hv⟩ := random_loop_append L messages
    (List.zipWith (fixedFixture L) fkeys messages, rng)
  obtain ⟨fuzz, hfuzz, hflen, hQ⟩ := forLoop_append (fun _ st => fuzzBody L st) Q
    (fun _ st out hb => hbody st out hb) 10000 _ out h
  refine ⟨fs ++ [⟨L.ONE, L.ZERO, (L._eccSign L.ONE L.ZERO).1, "Strange hash", true⟩,
      ⟨L.ONE, L.UINT256_MAX, (L._eccSign L.ONE L.UINT256_MAX).1, "Strange hash", true⟩,
      ⟨L.GROUP_ORDER_LESS_1, L.ZERO, (L._eccSign L.GROUP_ORDER_LESS_1 L.ZERO).1,
        "Stange hash", true⟩,
      ⟨L.GROUP_ORDER_LESS_1, L.UINT256_MAX, (L._eccSign L.GROUP_ORDER_LESS_1 L.UINT256_MAX).1,
        "Strange hash", true⟩], fuzz, ?_, ?_, ?_, hflen, hQ⟩
  · rw [hfuzz]
    simp [hfs]
  · have hm : messages.length = 7 := rfl
    simp [hlen, hm]
  · intro f hf
    rcases List.mem_append.mp hf with hf | hf
    · exact hv f hf
    · simp only [List.mem_cons, List.mem_singleton, List.not_mem_nil, or_false] at hf
      rcases hf with hf | hf | hf | hf <;> rw [hf]

/-! ## The small library runs the generators to the end -/

theorem foldl_replicate_zero (m : Nat) :
    (List.replicate m (0 : Fin 256)).foldl (fun acc b => acc * 256 + b.val) 0 = 0 := by
  induction m with
  | zero => rfl
  | succ m ih => rw [List.replicate_succ, List.foldl_cons]; exact ih

theorem toNat_ofNat32 (k : Nat) : toNat (ofNat32 k) = k % 256 := by
  unfold toNat ofNat32
  rw [List.foldl_append, foldl_replicate_zero]
  simp

theorem toy_fuzzBody_isSome (st : List S × Nat) : (fuzzBody toyLib st).isSome = true := by
  have hP : (toyLib._pointFromScalar 33 (toyLib.randomPrivate st.2).1).2 = true := by
    show decide (0 < toNat (ofNat32 (st.2 % 5 + 1)) ∧ toNat (ofNat32 (st.2 % 5 + 1)) < 251) = true
    rw [toNat_ofNat32, decide_eq_true_eq]
    omega
  have hV : ∀ (d m : Arr 32), toyLib._eccVerify (toyLib._pointFromScalar 33 d).1 m
      (toyLib._eccSign d m).1 = true := by
    intro d m
    show decide (toySig (toyMulG 33 (toNat d)) m = toySig (toyMulG 33 (toNat d)) m) = true
    simp
  unfold fuzzBody
  simp only [hP, hV, assertThen_true, beq_self_eq_true]
  split
  · obtain ⟨sig1, hx⟩ := Option.isSome_iff_exists.mp (xorAt_isSome
      (toyLib._eccSign (toyLib.randomPrivate st.2).1
        (toyLib.randomScalar (toyLib.randomPrivate st.2).2).1).1
      ((toyLib.randomUInt8 (toyLib.randomUInt8 (toyLib.randomUInt8
        (toyLib.randomScalar (toyLib.randomPrivate st.2).2).2).2).2).1.val % 32)
      (1 <<< (1 + (toyLib.randomUInt8 (toyLib.randomUInt8
        (toyLib.randomScalar (toyLib.randomPrivate st.2).2).2).2).1.val % 6))
      (Nat.lt_of_lt_of_le (Nat.mod_lt _ (by decide)) (by decide)))
    have hne : sig1 ≠ (toyLib._eccSign (toyLib.randomPrivate st.2).1
        (toyLib.randomScalar (toyLib.randomPrivate st.2).2).1).1 :=
      xorAt_ne _ _ _ _ (by
        have := Nat.mod_lt (toyLib.randomUInt8 (toyLib.randomUInt8
          (toyLib.randomScalar (toyLib.randomPrivate st.2).2).2).2).1.val (show 0 < 6 by decide)
        omega) hx
    rw [hx]
    have hF : toyLib._eccVerify (toyLib._pointFromScalar 33 (toyLib.randomPrivate st.2).1).1
        (toyLib.randomScalar (toyLib.randomPrivate st.2).2).1 sig1 = false := by
      show decide (sig1 = toySig _ _) = false
      rw [decide_eq_false_iff_not]
      exact hne
    simp only [hF, beq_self_eq_true, assertThen_true]
    rfl
  · rfl

theorem toy_generateSigns_isSome (rng : Nat) : (generateSigns toyLib rng).isSome = true := by
  unfold generateSigns
  rw [fixed_loop_eq, Option.some_bind]
  exact forLoop_isSome (fun _ st => fuzzBody toyLib st) (fun _ st => toy_fuzzBody_isSome st) _ _

/-! ## C2: the fuzz corpus agrees with `verify` -/

/-- C2: when `generateSigns` runs to the end, the corpus is 18 fixtures followed by the
10000 fixtures `(d, m, signature, verifies)` of the fuzz loop, and each of these satisfies
`verify(pointFromScalar(d), m, signature) == verifies`, whatever the random source and the
primitive library. -/
theorem generateSigns_fuzz_verify {σ : Type} (L : Lib σ) (rng : σ) (out : List S × σ)
    (h : generateSigns L rng = some out) :
    ∃ head fuzz : List S, out.1 = head ++ fuzz ∧ head.length = 18 ∧ fuzz.length = 10000 ∧
      ∀ f ∈ fuzz, L._eccVerify (L._pointFromScalar 33 f.d).1 f.m f.e = f.v := by
  obtain ⟨mid, fuzz, hout, hmid, -, hfuzz, hQ⟩ := generateSigns_shape L
    (fun f => L._eccVerify (L._pointFromScalar 33 f.d).1 f.m f.e = f.v)
    (fun st out hb => fuzzBody_verify L st out hb) rng out h
  refine ⟨_, fuzz, hout, ?_, hfuzz, hQ⟩
  have hz : (List.zipWith (fixedFixture L) fkeys messages).length = 7 := rfl
  rw [List.length_append, hz, hmid]

/-- C2 on the small library, whose run from the state 0 of the random source ends. -/
theorem generateSigns_fuzz_verify_witness :
    ∃ out, generateSigns toyLib 0 = some out ∧
      ∃ head fuzz : List S, out.1 = head ++ fuzz ∧ head.length = 18 ∧ fuzz.length = 10000 ∧
        ∀ f ∈ fuzz, toyLib._eccVerify (toyLib._pointFromScalar 33 f.d).1 f.m f.e = f.v := by
  obtain ⟨out, h⟩ := Option.isSome_iff_exists.mp (toy_generateSigns_isSome 0)
  exact ⟨out, h, generateSigns_fuzz_verify toyLib 0 out h⟩

/-! ## C3: the controlled corruption of the fuzz loop -/

/-- C3: when `generateSigns` runs to the end, every fixture `f` of its fuzz loop comes from
an iteration, started in some state `r` of the random source, that drew the key `f.d`, the
hash `f.m` and then the random bytes `b1`, `b2`, `b3`.  The signature `f.e` is corrupted,
that is differs from `sign(d, m)`, iff `b1 > 0x7f`, that is iff the high bit of `b1` is
set.  When corrupted, `f.e` differs from `sign(d, m)` in exactly one bit, bit `1 + b2 % 6`
(in `1..6`) of byte `b3 % 32` (below 32; the access `at` is inside the 64 bytes whatever
the byte drawn), and `verifies` is false; when not corrupted `f.e` is `sign(d, m)` and
`verifies` is true.  So `verifies` is true iff the emitted signature is the untouched
one. -/
theorem generateSigns_bit_flip {σ : Type} (L : Lib σ) (rng : σ) (out : List S × σ)
    (h : generateSigns L rng = some out) :
    (∀ (sig : Arr 64) (b : Fin 256) (mask : Nat), (sig.xorAt (b.val % 32) mask).isSome = true) ∧
    ∃ head fuzz : List S, out.1 = head ++ fuzz ∧ head.length = 18 ∧ fuzz.length = 10000 ∧
      ∀ f ∈ fuzz, ∃ r : σ, f.d = fuzzKey L r ∧ f.m = fuzzHash L r ∧
        (f.e ≠ (L._eccSign f.d f.m).1 ↔ 0x7f < (fuzzByte1 L r).val) ∧
        (0x7f < (fuzzByte1 L r).val ↔ (fuzzByte1 L r).val.testBit 7 = true) ∧
        (0x7f < (fuzzByte1 L r).val →
          (fuzzByte3 L r).val % 32 < 32 ∧
          1 ≤ 1 + (fuzzByte2 L r).val % 6 ∧ 1 + (fuzzByte2 L r).val % 6 ≤ 6 ∧
          (∀ j t, f.e.bit j t ≠ (L._eccSign f.d f.m).1.bit j t ↔
            (j = (fuzzByte3 L r).val % 32 ∧ t = 1 + (fuzzByte2 L r).val % 6)) ∧
          f.v = false) ∧
        (¬ 0x7f < (fuzzByte1 L r).val → f.e = (L._eccSign f.d f.m).1 ∧ f.v = true) ∧
        (f.v = true ↔ f.e = (L._eccSign f.d f.m).1) := by
  refine ⟨fun sig b mask => xorAt_isSome sig _ mask
    (Nat.lt_of_lt_of_le (Nat.mod_lt _ (by decide)) (by decide)), ?_⟩
  obtain ⟨mid, fuzz, hout, hmid, -, hfuzz, hQ⟩ := generateSigns_shape L _
    (fun st out hb => fuzzBody_flip L st out hb) rng out h
  refine ⟨_, fuzz, hout, ?_, hfuzz, hQ⟩
  have hz : (List.zipWith (fixedFixture L) fkeys messages).length = 7 := rfl
  rw [List.length_append, hz, hmid]

/-- C3 on the small library, whose run from the state 0 of the random source ends. -/
theorem generateSigns_bit_flip_witness :
    ∃ out, generateSigns toyLib 0 = some out ∧
      (∀ (sig : Arr 64) (b : Fin 256) (mask : Nat), (sig.xorAt (b.val % 32) mask).isSome = true) ∧
      ∃ head fuzz : List S, out.1 = head ++ fuzz ∧ head.length = 18 ∧ fuzz.length = 10000 ∧
        ∀ f ∈ fuzz, ∃ r : Nat, f.d = fuzzKey toyLib r ∧ f.m = fuzzHash toyLib r ∧
          (f.e ≠ (toyLib._eccSign f.d f.m).1 ↔ 0x7f < (fuzzByte1 toyLib r).val) ∧
          (0x7f < (fuzzByte1 toyLib r).val ↔ (fuzzByte1 toyLib r).val.testBit 7 = true) ∧
          (0x7f < (fuzzByte1 toyLib r).val →
            (fuzzByte3 toyLib r).val % 32 < 32 ∧
            1 ≤ 1 + (fuzzByte2 toyLib r).val % 6 ∧ 1 + (fuzzByte2 toyLib r).val % 6 ≤ 6 ∧
            (∀ j t, f.e.bit j t ≠ (toyLib._eccSign f.d f.m).1.bit j t ↔
              (j = (fuzzByte3 toyLib r).val % 32 ∧ t = 1 + (fuzzByte2 toyLib r).val % 6)) ∧
            f.v = false) ∧
          (¬ 0x7f < (fuzzByte1 toyLib r).val → f.e = (toyLib._eccSign f.d f.m).1 ∧ f.v = true) ∧
          (f.v = true ↔ f.e = (toyLib._eccSign f.d f.m).1) := by
  obtain ⟨out, h⟩ := Option.isSome_iff_exists.mp (toy_generateSigns_isSome 0)
  exact ⟨out, h, generateSigns_bit_flip toyLib 0 out h⟩

/-! ## C9: the deterministic corpus -/

theorem fixedFixture_zip_v {σ : Type} (L : Lib σ) :
    ∀ (ks ms : List String) (f : S), f ∈ List.zipWith (fixedFixture L) ks ms → f.v = true
  | [], _, f, h => by simp at h
  | _ :: _, [], f, h => by simp at h
  | k :: ks, m :: ms, f, h => by
    rw [List.zipWith_cons_cons, List.mem_cons] at h
    rcases h with h | h
    · rw [h]; rfl
    · exact fixedFixture_zip_v L ks ms f h

/-- C9: `fkeys` and `messages` both have 7 entries, so `fkeys[i++]` is in bounds for every
message; when `generateSigns` runs to the end, for every `i < 7` the `i`-th fixture has
`d = scalarFromHex(fkeys[i])`, `m = sha256(messages[i])`, `signature = sign(d, m)`,
description `messages[i]` and `verifies = true`; fixture 0 pairs the key `00..01` with the
message "Everything should be made as simple as possible, but not simpler."; the corpus
has 10018 fixtures and each of the first 18 has `verifies = true`. -/
theorem generateSigns_deterministic {σ : Type} (L : Lib σ) (rng : σ) (out : List S × σ)
    (h : generateSigns L rng = some out) :
    fkeys.length = 7 ∧ messages.length = 7 ∧
    (∀ i, i < 7 → ∃ k msg, fkeys[i]? = some k ∧ messages[i]? = some msg ∧
      out.1[i]? = some ⟨L.scalarFromHex k, L.sha256 msg,
        (L._eccSign (L.scalarFromHex k) (L.sha256 msg)).1, msg, true⟩) ∧
    out.1[0]? = some ⟨
      L.scalarFromHex "0000000000000000000000000000000000000000000000000000000000000001",
      L.sha256 "Everything should be made as simple as possible, but not simpler.",
      (L._eccSign
        (L.scalarFromHex "0000000000000000000000000000000000000000000000000000000000000001")
        (L.sha256 "Everything should be made as simple as possible, but not simpler.")).1,
      "Everything should be made as simple as possible, but not simpler.", true⟩ ∧
    out.1.length = 7 + 7 + 4 + 10000 ∧
    (∀ i, i < 18 → ∃ f, out.1[i]? = some f ∧ f.v = true) := by
  obtain ⟨mid, fuzz, hout, hmid, hmidv, hfuzz, -⟩ := generateSigns_shape L (fun _ => True)
    (fun st out hb => (fuzzBody_verify L st out hb).imp (fun _ hf => ⟨hf.1, trivial⟩))
    rng out h
  have hz : (List.zipWith (fixedFixture L) fkeys messages).length = 7 := rfl
  have hfix : ∀ i, i < 7 →
      out.1[i]? = (List.zipWith (fixedFixture L) fkeys messages)[i]? := by
    intro i hi
    rw [hout, List.append_assoc, List.getElem?_append_left (by rw [hz]; exact hi)]
  refine ⟨rfl, rfl, ?_, ?_, ?_, ?_⟩
  · intro i hi
    rw [hfix i hi]
    rcases i with _ | _ | _ | _ | _ | _ | _ | i
    · exact ⟨_, _, rfl, rfl, rfl⟩
    · exact ⟨_, _, rfl, rfl, rfl⟩
    · exact ⟨_, _, rfl, rfl, rfl⟩
    · exact ⟨_, _, rfl, rfl, rfl⟩
    · exact ⟨_, _, rfl, rfl, rfl⟩
    · exact ⟨_, _, rfl, rfl, rfl⟩
    · exact ⟨_, _, rfl, rfl, rfl⟩
    · omega
  · rw [hfix 0 (by decide)]
    rfl
  · rw [hout, List.length_append, List.length_append, hz, hmid, hfuzz]
  · intro i hi
    have hlen : (List.zipWith (fixedFixture L) fkeys messages ++ mid).length = 18 := by
      rw [List.length_append, hz, hmid]
    have hi2 : i < (List.zipWith (fixedFixture L) fkeys messages ++ mid).length := by
      rw [hlen]; exact hi
    refine ⟨(List.zipWith (fixedFixture L) fkeys messages ++ mid)[i], ?_, ?_⟩
    · rw [hout, List.getElem?_append_left hi2, List.getElem?_eq_getElem hi2]
    · have hmem := List.getElem_mem hi2
      rcases List.mem_append.mp hmem with hm | hm
      · exact fixedFixture_zip_v L fkeys messages _ hm
      · exact hmidv _ hm

/-- C9 on the small library, whose run from the state 0 of the random source ends. -/
theorem generateSigns_deterministic_witness :
    ∃ out, generateSigns toyLib 0 = some out ∧
      fkeys.length = 7 ∧ messages.length = 7 ∧
      (∀ i, i < 7 → ∃ k msg, fkeys[i]? = some k ∧ messages[i]? = some msg ∧
        out.1[i]? = some ⟨toyLib.scalarFromHex k, toyLib.sha256 msg,
          (toyLib._eccSign (toyLib.scalarFromHex k) (toyLib.sha256 msg)).1, msg, true⟩) ∧
      out.1[0]? = some ⟨
        toyLib.scalarFromHex "0000000000000000000000000000000000000000000000000000000000000001",
        toyLib.sha256 "Everything should be made as simple as possible, but not simpler.",
        (toyLib._eccSign
          (toyLib.scalarFromHex
            "0000000000000000000000000000000000000000000000000000000000000001")
          (toyLib.sha256 "Everything should be made as simple as possible, but not simpler.")).1,
        "Everything should be made as simple as possible, but not simpler.", true⟩ ∧
      out.1.length = 7 + 7 + 4 + 10000 ∧
      (∀ i, i < 18 → ∃ f, out.1[i]? = some f ∧ f.v = true) := by
  obtain ⟨out, h⟩ := Option.isSome_iff_exists.mp (toy_generateSigns_isSome 0)
  exact ⟨out, h, generateSigns_deterministic toyLib 0 out h⟩

/-! ## The shape of the result of `generate` -/

theorem ipBody_eq_some {σ : Type} (L : Lib σ) (n : Nat) (st t : List (IP n) × σ)
    (h : ipBody L n st = some t) : t = ipNext L n st := by
  simp only [ipBody, assertThen_eq_some, Option.some.injEq] at h
  exact h.2.symm

theorem ip_iter {σ : Type} (L : Lib σ) (n : Nat) (st : List (IP n) × σ) (k : Nat) :
    ((ipNext L n)^[k] st).2 = (fun r => (L.randomPrivate r).2)^[k] st.2 ∧
    ((ipNext L n)^[k] st).1 = st.1 ++ (List.range k).map (fun i =>
      (⟨(L._pointFromScalar n
          (L.randomPrivate ((fun r => (L.randomPrivate r).2)^[i] st.2)).1).1, true, ""⟩ :
        IP n)) := by
  induction k with
  | zero => simp
  | succ k ih =>
    obtain ⟨ih2, ih1⟩ := ih
    rw [Function.iterate_succ_apply', Function.iterate_succ_apply']
    refine ⟨by rw [← ih2]; rfl, ?_⟩
    rw [List.range_succ, List.map_append, ← List.append_assoc, ← ih1]
    simp only [List.map_cons, List.map_nil]
    rw [← ih2]
    rfl

theorem paBody_eq_some {σ : Type} (L : Lib σ) (n : Nat) (st out : List (PA n) × σ)
    (h : paBody L n st = some out) :
    ∃ f : PA n, out.1 = st.1 ++ [f] ∧
      (f.e = (L._pointAdd n f.a f.b).1 ∧ f.except = "" ∧ f.desc = "" ∧
        ∃ d1 d2 : Arr 32, f.a = (L._pointFromScalar n d1).1 ∧
          f.b = (L._pointFromScalar n d2).1) := by
  simp only [paBody, assertThen_eq_some, Option.some.injEq] at h
  refine ⟨_, by rw [← h.2], rfl, rfl, rfl, _, _, rfl, rfl⟩

theorem pasLoop_eq_some {σ : Type} (L : Lib σ) (n : Nat) (pas0 pas : List (PAS n))
    (h : forLoop (pasBody L n) 4 pas0 = some pas) : pas = pas0 ++ pasLoop L n := by
  simp only [forLoop] at h
  simp only [pasBody, assertThen_eq_some, Option.some.injEq] at h
  split at h
  · exact absurd h (by simp)
  · rename_i t3 h3
    split at h3
    · exact absurd h3 (by simp)
    · rename_i t2 h2
      split at h2
      · exact absurd h2 (by simp)
      · rename_i t1 h1
        simp only [assertThen_eq_some, Option.some.injEq] at h1 h2 h3 h
        rw [← h.2.2, ← h3.2.2, ← h2.2.2, ← h1.2.2]
        simp [pasLoop, List.range_succ]

/-- What `generate` returns when it runs to the end: each of the seven vectors in terms of
its hand-written part, the catalogs, the random draws and `test_ec_combine`. -/
theorem generate_shape {σ : Type} (L : Lib σ) (n : Nat) (G : Arr n) (rng : σ)
    (out : Gen n × σ) (h : generate L n G rng = some out) :
    out.1.ip = (ipFixed L n G ++ (L.generateBadPoints n).map (fun x => ⟨x.P, false, x.desc⟩))
      ++ (List.range 100).map (fun i =>
        (⟨(L._pointFromScalar n
          (L.randomPrivate ((fun r => (L.randomPrivate r).2)^[i] rng)).1).1, true, ""⟩ :
          IP n)) ∧
    (∃ (rand : List (PA n)) (r2 : σ) (c : CombineState σ n),
      rand.length = 100 ∧
      (∀ f ∈ rand, f.e = (L._pointAdd n f.a f.b).1 ∧ f.except = "" ∧ f.desc = "" ∧
        ∃ d1 d2 : Arr 32, f.a = (L._pointFromScalar n d1).1 ∧
          f.b = (L._pointFromScalar n d2).1) ∧
      test_ec_combine L n (paFixed L n G ++ rand) (pasFixed L n ++ pasLoop L n)
        (pfsFixed L n) r2 = some c ∧
      out.1.pa = c.pa ∧ out.1.pas = c.pas ∧ out.1.pfs = c.pfs) ∧
    out.1.paf = pafAll L n ∧ out.1.pasf = pasfAll L n ∧ out.1.pfsf = pfsfAll L n := by
  simp only [generate, assertThen_eq_some, Option.bind_eq_some, Option.some.injEq] at h
  obtain ⟨-, s1, h1, s2, h2, pas, h3, c, h4, hout⟩ := h
  obtain ⟨hs1, -⟩ := forLoop_eq_some_iterate (fun _ st => ipBody L n st) (ipNext L n)
    (fun _ s t hst => ipBody_eq_some L n s t hst) 100 _ s1 h1
  obtain ⟨rand, hrand, hlen, hQ⟩ := forLoop_append (fun _ st => paBody L n st)
    (fun f => f.e = (L._pointAdd n f.a f.b).1 ∧ f.except = "" ∧ f.desc = "" ∧
        ∃ d1 d2 : Arr 32, f.a = (L._pointFromScalar n d1).1 ∧
          f.b = (L._pointFromScalar n d2).1)
    (fun _ st out hb => paBody_eq_some L n st out hb) 100 _ s2 h2
  have hpas := pasLoop_eq_some L n _ pas h3
  rw [← hout]
  refine ⟨?_, ⟨rand, s2.2, c, hlen, hQ, ?_, rfl, rfl, rfl⟩, rfl, rfl, rfl⟩
  · show s1.1 = _
    rw [hs1, (ip_iter L n _ 100).2, foldl_push_one]
  · rw [← hrand, ← hpas]
    exact h4

/-- The three vectors after `test_ec_combine`: the earlier elements, then ten more, those
of `pa` carrying the sum that `_pointAdd` returned. -/
theorem test_ec_combine_lists {σ : Type} (L : Lib σ) (n : Nat)
    (pa : List (PA n)) (pas : List (PAS n)) (pfs : List (PFS n)) (rng : σ)
    (c : CombineState σ n) (h : test_ec_combine L n pa pas pfs rng = some c) :
    (∃ l, c.pa = pa ++ l ∧ l.length = 10 ∧ ∀ f ∈ l, f.e = (L._pointAdd n f.a f.b).1) ∧
    (∃ l, c.pas = pas ++ l ∧ l.length = 10) ∧
    (∃ l, c.pfs = pfs ++ l ∧ l.length = 10) := by
  obtain ⟨hc, -⟩ := test_ec_combine_eq_some L n pa pas pfs rng c h
  have h1 := combine_iter_pa L n ⟨L.ONE, (L._pointFromScalar n L.ONE).1, pa, pas, pfs, rng⟩ 10
  have h2 := combine_iter_pas L n ⟨L.ONE, (L._pointFromScalar n L.ONE).1, pa, pas, pfs, rng⟩ 10
  have h3 := combine_iter_pfs L n ⟨L.ONE, (L._pointFromScalar n L.ONE).1, pa, pas, pfs, rng⟩ 10
  rw [← hc] at h1 h2 h3
  refine ⟨⟨_, h1, by simp, ?_⟩, ⟨_, h2, by simp⟩, ⟨_, h3, by simp⟩⟩
  intro f hf
  obtain ⟨i, -, hfi⟩ := List.mem_map.mp hf
  rw [← hfi, Function.iterate_succ_apply']
  rfl

/-! ## Consequences of the group model -/

theorem model_points {σ : Type} {L : Lib σ} {n N : Nat} {mulG : Nat → Arr n}
    (hm : ScalarMulModel L n N mulG) :
    G_LESS_1 L n = mulG (N - 1) ∧ G_LESS_2 L n = mulG (N - 2) ∧ G_LESS_3 L n = mulG (N - 3) ∧
    G_ONE L n = mulG 1 ∧ G_TWO L n = mulG 2 ∧ G_THREE L n = mulG 3 ∧
    (L._pointFromUInt32 n 4).1 = mulG 4 ∧ (L._pointFromUInt32 n 5).1 = mulG 5 := by
  have hN := hm.order_gt
  refine ⟨?_, ?_, ?_, ?_, ?_, ?_, ?_, ?_⟩
  · unfold G_LESS_1
    rw [hm.fromScalar _ (by rw [hm.less_1_val]; omega) (by rw [hm.less_1_val]; omega),
      hm.less_1_val]
  · unfold G_LESS_2
    rw [hm.fromScalar _ (by rw [hm.less_2_val]; omega) (by rw [hm.less_2_val]; omega),
      hm.less_2_val]
  · unfold G_LESS_3
    rw [hm.fromScalar _ (by rw [hm.less_3_val]; omega) (by rw [hm.less_3_val]; omega),
      hm.less_3_val]
  · unfold G_ONE
    rw [hm.fromUInt32 1 (by omega) (by omega)]
  · unfold G_TWO
    rw [hm.fromUInt32 2 (by omega) (by omega)]
  · unfold G_THREE
    rw [hm.fromUInt32 3 (by omega) (by omega)]
  · rw [hm.fromUInt32 4 (by omega) (by omega)]
  · rw [hm.fromUInt32 5 (by omega) (by omega)]

/-! ## The small library is a group model -/

theorem fill_inj {n : Nat} (hn : 0 < n) (x y : Fin 256) (h : Arr.fill n x = Arr.fill n y) :
    x = y := by
  have hv : List.replicate n x = List.replicate n y := congrArg Subtype.val h
  obtain ⟨m, rfl⟩ : ∃ m, n = m + 1 := ⟨n - 1, by omega⟩
  rw [List.replicate_succ, List.replicate_succ] at hv
  exact (List.cons.inj hv).1

theorem toyMulG_inj {n : Nat} (hn : 0 < n) (a b : Nat) (ha : a < 251) (hb : b < 251)
    (h : toyMulG n a = toyMulG n b) : a = b := by
  have hx := congrArg Fin.val (fill_inj hn _ _ h)
  simp only at hx
  omega

theorem toyDec_toyMulG {n : Nat} (hn : 0 < n) (a : Nat) : toyDec (toyMulG n a) = a % 251 := by
  obtain ⟨m, rfl⟩ : ∃ m, n = m + 1 := ⟨n - 1, by omega⟩
  unfold toyDec toyMulG Arr.fill
  simp only [List.replicate_succ, List.headD_cons]
  omega

theorem toy_scalarMulModel : ScalarMulModel toyLib 33 251 (toyMulG 33) where
  order_gt := by decide
  zero_val := toNat_ofNat32 0
  one_val := toNat_ofNat32 1
  two_val := toNat_ofNat32 2
  three_val := toNat_ofNat32 3
  less_1_val := toNat_ofNat32 250
  less_2_val := toNat_ofNat32 249
  less_3_val := toNat_ofNat32 248
  fromScalar := by
    intro s h0 hN
    show (toyMulG 33 (toNat s), decide (0 < toNat s ∧ toNat s < 251)) = _
    rw [decide_eq_true (And.intro h0 hN)]
  fromUInt32 := by
    intro i h0 hN
    show (toyMulG 33 i, decide (0 < i ∧ i < 251)) = _
    rw [decide_eq_true (And.intro h0 hN)]
  mulG_inj := fun a b _ ha _ hb h => toyMulG_inj (by decide) a b ha hb h
  mulG_ne_null := by
    intro a _ _ h
    have hx := congrArg Fin.val (fill_inj (show 0 < 33 by decide) _ _ h)
    simp only at hx
    omega

theorem toy_groupModel : GroupModel toyLib 33 251 (toyMulG 33) where
  scalarMul := toy_scalarMulModel
  add := by
    intro a b _ ha _ hb
    show toyAdd 33 (toyDec (toyMulG 33 a) + toyDec (toyMulG 33 b)) = _
    rw [toyDec_toyMulG (by decide), toyDec_toyMulG (by decide), Nat.mod_eq_of_lt ha,
      Nat.mod_eq_of_lt hb]
    rfl

theorem toy_generate_isSome : (generate toyLib 33 (toyMulG 33 1) 0).isSome = true := by
  decide

/-! ## C1: the valid `pointAdd` set -/

/-- The sum that `_pointAdd` returns for two multiples of `G` whose scalars add up to `c`
modulo `N`. -/
theorem model_add {σ : Type} {L : Lib σ} {n N : Nat} {mulG : Nat → Arr n}
    (hm : GroupModel L n N mulG) (a b c : Nat) (ha0 : 0 < a) (haN : a < N) (hb0 : 0 < b)
    (hbN : b < N) (hc : c < N) (hsum : a + b = c ∨ a + b = N + c) :
    (L._pointAdd n (mulG a) (mulG b)).1 = if c = 0 then NULLQ n else mulG c := by
  have hmod : (a + b) % N = c := by
    rcases hsum with hs | hs
    · rw [hs, Nat.mod_eq_of_lt hc]
    · rw [hs, Nat.add_mod_left, Nat.mod_eq_of_lt hc]
  rw [hm.add a b ha0 haN hb0 hbN, hmod]
  rfl

/-- C1, with the fixture where it fails: when the library is a group model, `generate` is
given the generator `1*G` and runs to the end, the valid `pointAdd` set has 119 fixtures
and every fixture `(P, Q, expected)` of index other than 6 has
`expected = pointAdd(P, Q)`; but the fixture of index 6 is
`(P = 1*G, Q = G, expected = NULLQ)`, while `pointAdd(1*G, G)` succeeds with `2*G`, which
is not the sentinel: the expected value of that fixture is not `pointAdd(P, Q)`. -/
theorem generate_pointAdd_generator_fixture {σ : Type} (L : Lib σ) (n N : Nat)
    (mulG : Nat → Arr n) (hm : GroupModel L n N mulG) (rng : σ) (out : Gen n × σ)
    (h : generate L n (mulG 1) rng = some out) :
    out.1.pa.length = 119 ∧
    (∀ i f, i ≠ 6 → out.1.pa[i]? = some f → f.e = (L._pointAdd n f.a f.b).1) ∧
    out.1.pa[6]? = some ⟨mulG 1, mulG 1, NULLQ n, "", ""⟩ ∧
    L._pointAdd n (mulG 1) (mulG 1) = (mulG 2, true) ∧ mulG 2 ≠ NULLQ n := by
  have hN := hm.scalarMul.order_gt
  obtain ⟨-, ⟨rand, r2, c, hrand, hQ, hc, hpa, -, -⟩, -⟩ := generate_shape L n (mulG 1) rng out h
  obtain ⟨⟨l, hl, hlen, hladd⟩, -, -⟩ := test_ec_combine_lists L n _ _ _ r2 c hc
  obtain ⟨hL1, hL2, hL3, hG1, hG2, hG3, -, -⟩ := model_points hm.scalarMul
  have h2 : (1 + 1) % N = 2 := Nat.mod_eq_of_lt (by omega)
  have h9 : (paFixed L n (mulG 1)).length = 9 := by simp [paFixed]
  have hfixed : paFixed L n (mulG 1) =
      [⟨mulG (N - 1), mulG (N - 1), mulG (N - 2), "", ""⟩,
       ⟨mulG (N - 1), mulG (N - 2), mulG (N - 3), "", ""⟩,
       ⟨mulG (N - 1), mulG (N - 2), mulG (N - 3), "", ""⟩,
       ⟨mulG 1, mulG (N - 1), NULLQ n, "", ""⟩,
       ⟨mulG 1, mulG (N - 2), mulG (N - 1), "", ""⟩,
       ⟨mulG 2, mulG (N - 1), mulG 1, "", ""⟩,
       ⟨mulG 1, mulG 1, NULLQ n, "", ""⟩,
       ⟨mulG 1, mulG 1, mulG 2, "", ""⟩,
       ⟨mulG 1, mulG 2, mulG 3, "", ""⟩] := by
    simp only [paFixed, hL1, hL2, hL3, hG1, hG2, hG3]
  refine ⟨?_, ?_, ?_, ?_, hm.scalarMul.mulG_ne_null 2 (by omega) (by omega)⟩
  · rw [hpa, hl, List.length_append, List.length_append, h9, hrand, hlen]
  · intro i f hi hf
    rw [hpa, hl, List.append_assoc] at hf
    by_cases hi9 : i < 9
    · rw [List.getElem?_append_left (by rw [h9]; exact hi9), hfixed] at hf
      have hcases : i = 0 ∨ i = 1 ∨ i = 2 ∨ i = 3 ∨ i = 4 ∨ i = 5 ∨ i = 7 ∨ i = 8 := by omega
      rcases hcases with rfl | rfl | rfl | rfl | rfl | rfl | rfl | rfl <;>
        simp only [List.getElem?_cons_zero, List.getElem?_cons_succ, Option.some.injEq] at hf <;>
        rw [← hf]
      · rw [model_add hm (N - 1) (N - 1) (N - 2) (by omega) (by omega) (by omega) (by omega)
          (by omega) (Or.inr (by omega)), if_neg (by omega)]
      · rw [model_add hm (N - 1) (N - 2) (N - 3) (by omega) (by omega) (by omega) (by omega)
          (by omega) (Or.inr (by omega)), if_neg (by omega)]
      · rw [model_add hm (N - 1) (N - 2) (N - 3) (by omega) (by omega) (by omega) (by omega)
          (by omega) (Or.inr (by omega)), if_neg (by omega)]
      · rw [model_add hm 1 (N - 1) 0 (by omega) (by omega) (by omega) (by omega)
          (by omega) (Or.inr (by omega)), if_pos rfl]
      · rw [model_add hm 1 (N - 2) (N - 1) (by omega) (by omega) (by omega) (by omega)
          (by omega) (Or.inl (by omega)), if_neg (by omega)]
      · rw [model_add hm 2 (N - 1) 1 (by omega) (by omega) (by omega) (by omega)
          (by omega) (Or.inr (by omega)), if_neg (by omega)]
      · rw [model_add hm 1 1 2 (by omega) (by omega) (by omega) (by omega)
          (by omega) (Or.inl (by omega)), if_neg (by omega)]
      · rw [model_add hm 1 2 3 (by omega) (by omega) (by omega) (by omega)
          (by omega) (Or.inl (by omega)), if_neg (by omega)]
    · rw [List.getElem?_append_right (by rw [h9]; omega)] at hf
      have hmem : f ∈ rand ++ l := List.mem_iff_getElem?.mpr ⟨_, hf⟩
      rcases List.mem_append.mp hmem with hm1 | hm1
      · exact (hQ f hm1).1
      · exact hladd f hm1
  · rw [hpa, hl, List.append_assoc,
      List.getElem?_append_left (by rw [h9]; decide), hfixed]
    rfl
  · rw [hm.add 1 1 (by omega) (by omega) (by omega) (by omega), h2, if_neg (by omega)]

/-- C1 with its failing fixture, on the small library: every valid `pointAdd` fixture but
that of index 6 expects `pointAdd(P, Q)`, and the fixture of index 6 expects the sentinel
where `pointAdd` returns `2*G`. -/
theorem generate_pointAdd_generator_fixture_witness :
    ∃ out, generate toyLib 33 (toyMulG 33 1) 0 = some out ∧
      out.1.pa.length = 119 ∧
      (∀ i f, i ≠ 6 → out.1.pa[i]? = some f → f.e = (toyLib._pointAdd 33 f.a f.b).1) ∧
      out.1.pa[6]? = some ⟨toyMulG 33 1, toyMulG 33 1, NULLQ 33, "", ""⟩ ∧
      toyLib._pointAdd 33 (toyMulG 33 1) (toyMulG 33 1) = (toyMulG 33 2, true) ∧
      toyMulG 33 2 ≠ NULLQ 33 := by
  obtain ⟨out, h⟩ := Option.isSome_iff_exists.mp toy_generate_isSome
  exact ⟨out, h, generate_pointAdd_generator_fixture toyLib 33 251 (toyMulG 33)
    toy_groupModel 0 out h⟩

/-! ## C10: the `isPoint` set -/

/-- C10, as stated, fails on the small library: the `isPoint` set has 109 fixtures for a
catalog of 2 bad points, not 104 + 2, and its fixture `A{0x2}` has `expected = false`
without being a catalog bad point. -/
theorem generate_isPoint_counterexample :
    ∃ out, generate toyLib 33 (toyMulG 33 1) 0 = some out ∧
      out.1.ip.length ≠ 104 + (toyLib.generateBadPoints 33).length ∧
      ∃ f ∈ out.1.ip, f.e = false ∧ ∀ x ∈ toyLib.generateBadPoints 33, f.a ≠ x.P := by
  obtain ⟨out, h⟩ := Option.isSome_iff_exists.mp toy_generate_isSome
  obtain ⟨hip, -⟩ := generate_shape toyLib 33 (toyMulG 33 1) 0 out h
  refine ⟨out, h, ?_, ⟨Arr.first 33 0x2, false, ""⟩, ?_, rfl, ?_⟩
  · rw [hip]
    simp [ipFixed, toyLib]
  · rw [hip]
    simp [ipFixed]
  · decide

/-- C10, amended: when `generate` runs to the end the `isPoint` set is, in this order,
`G` (true), the three buffers `A{0x2}`, `A{0x3}`, `A{0x4}` (false, no description),
`1*G`, `2*G`, `3*G` (true), one fixture `(x.P, false, x.desc)` for every entry `x` of
`generateBadPoints<A>()`, and the 100 points derived from fresh random private keys (true),
with no other fixture.  Its length is 107 + |badPoints|, and every fixture with
`expected = false` is a catalog bad point with its description or one of the three
buffers `A{0x2}`, `A{0x3}`, `A{0x4}`. -/
theorem generate_isPoint_set {σ : Type} (L : Lib σ) (n : Nat) (G : Arr n) (rng : σ)
    (out : Gen n × σ) (h : generate L n G rng = some out) :
    out.1.ip =
      ([⟨G, true, ""⟩, ⟨Arr.first n 0x2, false, ""⟩, ⟨Arr.first n 0x3, false, ""⟩,
        ⟨Arr.first n 0x4, false, ""⟩, ⟨(L._pointFromUInt32 n 1).1, true, ""⟩,
        ⟨(L._pointFromUInt32 n 2).1, true, ""⟩, ⟨(L._pointFromUInt32 n 3).1, true, ""⟩]
        ++ (L.generateBadPoints n).map (fun x => ⟨x.P, false, x.desc⟩))
      ++ (List.range 100).map (fun i =>
        (⟨(L._pointFromScalar n
          (L.randomPrivate ((fun r => (L.randomPrivate r).2)^[i] rng)).1).1, true, ""⟩ :
          IP n)) ∧
    out.1.ip.length = 107 + (L.generateBadPoints n).length ∧
    ∀ f ∈ out.1.ip, f.e = false →
      (∃ x ∈ L.generateBadPoints n, f.a = x.P ∧ f.desc = x.desc) ∨
      (f.desc = "" ∧ (f.a = Arr.first n 0x2 ∨ f.a = Arr.first n 0x3 ∨ f.a = Arr.first n 0x4)) := by
  obtain ⟨hip, -⟩ := generate_shape L n G rng out h
  refine ⟨hip, ?_, ?_⟩
  · rw [hip]
    simp [ipFixed]
    omega
  · intro f hf he
    rw [hip] at hf
    rcases List.mem_append.mp hf with hf | hf
    · rcases List.mem_append.mp hf with hf | hf
      · simp only [ipFixed, List.mem_cons, List.mem_singleton, List.not_mem_nil, or_false] at hf
        rcases hf with hf | hf | hf | hf | hf | hf | hf
        · rw [hf] at he; exact absurd he (by simp)
        · right; rw [hf]; exact ⟨rfl, Or.inl rfl⟩
        · right; rw [hf]; exact ⟨rfl, Or.inr (Or.inl rfl)⟩
        · right; rw [hf]; exact ⟨rfl, Or.inr (Or.inr rfl)⟩
        · rw [hf] at he; exact absurd he (by simp)
        · rw [hf] at he; exact absurd he (by simp)
        · rw [hf] at he; exact absurd he (by simp)
      · left
        obtain ⟨x, hx, hfx⟩ := List.mem_map.mp hf
        exact ⟨x, hx, by rw [← hfx], by rw [← hfx]⟩
    · obtain ⟨i, -, hfi⟩ := List.mem_map.mp hf
      rw [← hfi] at he
      exact absurd he (by simp)

/-- C10, amended, on the small library. -/
theorem generate_isPoint_set_witness :
    ∃ out, generate toyLib 33 (toyMulG 33 1) 0 = some out ∧
      out.1.ip.length = 107 + (toyLib.generateBadPoints 33).length ∧
      ∀ f ∈ out.1.ip, f.e = false →
        (∃ x ∈ toyLib.generateBadPoints 33, f.a = x.P ∧ f.desc = x.desc) ∨
        (f.desc = "" ∧
          (f.a = Arr.first 33 0x2 ∨ f.a = Arr.first 33 0x3 ∨ f.a = Arr.first 33 0x4)) := by
  obtain ⟨out, h⟩ := Option.isSome_iff_exists.mp toy_generate_isSome
  exact ⟨out, h, (generate_isPoint_set toyLib 33 (toyMulG 33 1) 0 out h).2⟩

/-! ## C8: the hand-written `pointAddScalar` fixtures -/

/-- A fixture `(k*G, d, e)` whose expected value is written for the residue `c` of `k + d`
modulo `N` follows the group law. -/
theorem pas_fixture_spec {σ : Type} {L : Lib σ} {n N : Nat} {mulG : Nat → Arr n}
    (hm : ScalarMulModel L n N mulG) (f : PAS n) (k c : Nat)
    (hk0 : 0 < k) (hkN : k < N) (ha : f.a = mulG k) (hc : c < N)
    (hsum : k + toNat f.b = c ∨ k + toNat f.b = N + c)
    (he : (c = 0 ∧ f.e = NULLQ n) ∨ (0 < c ∧ f.e = mulG c))
    (hdesc : f.desc = "Adds to infinity" ↔ c = 0) :
    ∃ k d, 0 < k ∧ k < N ∧ f.a = mulG k ∧ toNat f.b = d ∧
      (f.e = NULLQ n ↔ (k + d) % N = 0) ∧
      ((k + d) % N ≠ 0 → f.e = mulG ((k + d) % N)) ∧
      (f.desc = "Adds to infinity" ↔ f.e = NULLQ n) := by
  have hmod : (k + toNat f.b) % N = c := by
    rcases hsum with hs | hs
    · rw [hs, Nat.mod_eq_of_lt hc]
    · rw [hs, Nat.add_mod_left, Nat.mod_eq_of_lt hc]
  have hnull : f.e = NULLQ n ↔ c = 0 := by
    rcases he with ⟨hc0, he⟩ | ⟨hc0, he⟩
    · exact ⟨fun _ => hc0, fun _ => he⟩
    · constructor
      · intro h
        rw [he] at h
        exact absurd h (hm.mulG_ne_null c hc0 hc)
      · intro h
        omega
  refine ⟨k, toNat f.b, hk0, hkN, ha, rfl, ?_, ?_, ?_⟩
  · rw [hmod]; exact hnull
  · rw [hmod]
    intro hne
    rcases he with ⟨hc0, -⟩ | ⟨-, he⟩
    · exact absurd hc0 hne
    · exact he
  · rw [hnull]; exact hdesc

/-- C8: when the library computes the multiples of `G` and `generate` runs to the end, the
valid `pointAddScalar` set has 27 fixtures, the first 17 being the hand-written ones (13
pushed one by one, 4 by the loop over `i`).  Each of these has a base point `k*G` with
`0 < k < N` and, for `d` the value of its tweak, its expected value is the sentinel iff
`k + d ≡ 0 (mod N)` and is `((k + d) mod N)*G` otherwise, and its description is "Adds to
infinity" iff the expected value is the sentinel.  The fixture of index 1 is
`((N-1)*G, 1, NULLQ)` tagged "Adds to infinity". -/
theorem generate_pointAddScalar_fixed {σ : Type} (L : Lib σ) (n N : Nat)
    (mulG : Nat → Arr n) (hm : ScalarMulModel L n N mulG) (G : Arr n) (rng : σ)
    (out : Gen n × σ) (h : generate L n G rng = some out) :
    out.1.pas.length = 27 ∧
    (∀ f ∈ out.1.pas.take 17, ∃ k d, 0 < k ∧ k < N ∧ f.a = mulG k ∧ toNat f.b = d ∧
      (f.e = NULLQ n ↔ (k + d) % N = 0) ∧
      ((k + d) % N ≠ 0 → f.e = mulG ((k + d) % N)) ∧
      (f.desc = "Adds to infinity" ↔ f.e = NULLQ n)) ∧
    (out.1.pas[1]? = some ⟨mulG (N - 1), L.ONE, NULLQ n, "", "Adds to infinity"⟩ ∧
      toNat L.ONE = 1) := by
  have hN := hm.order_gt
  obtain ⟨-, ⟨rand, r2, c, -, -, hc, -, hpas, -⟩, -⟩ := generate_shape L n G rng out h
  obtain ⟨-, ⟨l, hl, hlen⟩, -⟩ := test_ec_combine_lists L n _ _ _ r2 c hc
  obtain ⟨hL1, hL2, hL3, hG1, hG2, hG3, hG4, hG5⟩ := model_points hm
  have h17 : (pasFixed L n ++ pasLoop L n).length = 17 := by simp [pasFixed, pasLoop]
  have h0 := hm.zero_val
  have h1 := hm.one_val
  have h2 := hm.two_val
  have h3 := hm.three_val
  have hl1 := hm.less_1_val
  have hl2 := hm.less_2_val
  have hs : ("" : String) ≠ "Adds to infinity" := by decide
  have hs1 : ("== G - 1" : String) ≠ "Adds to infinity" := by decide
  have hs2 : ("== 1" : String) ≠ "Adds to infinity" := by decide
  refine ⟨by rw [hpas, hl, List.length_append, h17, hlen], ?_, ?_, h1⟩
  · intro f hf
    rw [hpas, hl, List.take_append_of_le_length (by rw [h17]), List.take_of_length_le
      (by rw [h17])] at hf
    rcases List.mem_append.mp hf with hf | hf
    · simp only [pasFixed, List.mem_cons, List.mem_singleton, List.not_mem_nil, or_false] at hf
      rcases hf with hf | hf | hf | hf | hf | hf | hf | hf | hf | hf | hf | hf | hf <;> rw [hf]
      · exact pas_fixture_spec hm _ (N - 1) (N - 1) (by omega) (by omega) hL1 (by omega)
          (Or.inl (by show N - 1 + toNat L.ZERO = N - 1; omega))
          (Or.inr ⟨by omega, hL1⟩) ⟨fun hd => absurd hd hs, fun hc0 => by omega⟩
      · exact pas_fixture_spec hm _ (N - 1) 0 (by omega) (by omega) hL1 (by omega)
          (Or.inr (by show N - 1 + toNat L.ONE = N + 0; omega))
          (Or.inl ⟨rfl, rfl⟩) ⟨fun _ => rfl, fun _ => rfl⟩
      · exact pas_fixture_spec hm _ (N - 1) 1 (by omega) (by omega) hL1 (by omega)
          (Or.inr (by show N - 1 + toNat L.TWO = N + 1; omega))
          (Or.inr ⟨by omega, hG1⟩) ⟨fun hd => absurd hd hs, fun hc0 => by omega⟩
      · exact pas_fixture_spec hm _ (N - 1) 2 (by omega) (by omega) hL1 (by omega)
          (Or.inr (by show N - 1 + toNat L.THREE = N + 2; omega))
          (Or.inr ⟨by omega, hG2⟩) ⟨fun hd => absurd hd hs, fun hc0 => by omega⟩
      · exact pas_fixture_spec hm _ (N - 1) (N - 2) (by omega) (by omega) hL1 (by omega)
          (Or.inr (by show N - 1 + toNat L.GROUP_ORDER_LESS_1 = N + (N - 2); omega))
          (Or.inr ⟨by omega, hL2⟩) ⟨fun hd => absurd hd hs, fun hc0 => by omega⟩
      · exact pas_fixture_spec hm _ (N - 1) (N - 3) (by omega) (by omega) hL1 (by omega)
          (Or.inr (by show N - 1 + toNat L.GROUP_ORDER_LESS_2 = N + (N - 3); omega))
          (Or.inr ⟨by omega, hL3⟩) ⟨fun hd => absurd hd hs, fun hc0 => by omega⟩
      · exact pas_fixture_spec hm _ (N - 1) (N - 3) (by omega) (by omega) hL1 (by omega)
          (Or.inr (by show N - 1 + toNat L.GROUP_ORDER_LESS_2 = N + (N - 3); omega))
          (Or.inr ⟨by omega, hL3⟩) ⟨fun hd => absurd hd hs, fun hc0 => by omega⟩
      · exact pas_fixture_spec hm _ (N - 2) (N - 1) (by omega) (by omega) hL2 (by omega)
          (Or.inl (by show N - 2 + toNat L.ONE = N - 1; omega))
          (Or.inr ⟨by omega, hL1⟩) ⟨fun hd => absurd hd hs, fun hc0 => by omega⟩
      · exact pas_fixture_spec hm _ (N - 2) 0 (by omega) (by omega) hL2 (by omega)
          (Or.inr (by show N - 2 + toNat L.TWO = N + 0; omega))
          (Or.inl ⟨rfl, rfl⟩) ⟨fun _ => rfl, fun _ => rfl⟩
      · exact pas_fixture_spec hm _ (N - 2) 1 (by omega) (by omega) hL2 (by omega)
          (Or.inr (by show N - 2 + toNat L.THREE = N + 1; omega))
          (Or.inr ⟨by omega, hG1⟩) ⟨fun hd => absurd hd hs, fun hc0 => by omega⟩
      · exact pas_fixture_spec hm _ 1 0 (by omega) (by omega) hG1 (by omega)
          (Or.inr (by show 1 + toNat L.GROUP_ORDER_LESS_1 = N + 0; omega))
          (Or.inl ⟨rfl, rfl⟩) ⟨fun _ => rfl, fun _ => rfl⟩
      · exact pas_fixture_spec hm _ 1 (N - 1) (by omega) (by omega) hG1 (by omega)
          (Or.inl (by show 1 + toNat L.GROUP_ORDER_LESS_2 = N - 1; omega))
          (Or.inr ⟨by omega, hL1⟩) ⟨fun hd => absurd hd hs1, fun hc0 => by omega⟩
      · exact pas_fixture_spec hm _ 2 1 (by omega) (by omega) hG2 (by omega)
          (Or.inr (by show 2 + toNat L.GROUP_ORDER_LESS_1 = N + 1; omega))
          (Or.inr ⟨by omega, hG1⟩) ⟨fun hd => absurd hd hs2, fun hc0 => by omega⟩
    · simp only [pasLoop, List.range_succ, List.range_zero, List.nil_append, List.cons_append,
        List.map_cons, List.map_nil, List.mem_cons, List.mem_singleton, List.not_mem_nil,
        or_false] at hf
      rcases hf with hf | hf | hf | hf <;> rw [hf]
      · exact pas_fixture_spec hm _ 1 2 (by omega) (by omega) hG1 (by omega)
          (Or.inl (by show 1 + toNat L.ONE = 2; omega))
          (Or.inr ⟨by omega, hG2⟩) ⟨fun hd => absurd hd hs, fun hc0 => by omega⟩
      · exact pas_fixture_spec hm _ 2 3 (by omega) (by omega) hG2 (by omega)
          (Or.inl (by show 2 + toNat L.ONE = 3; omega))
          (Or.inr ⟨by omega, hG3⟩) ⟨fun hd => absurd hd hs, fun hc0 => by omega⟩
      · exact pas_fixture_spec hm _ 3 4 (by omega) (by omega) hG3 (by omega)
          (Or.inl (by show 3 + toNat L.ONE = 4; omega))
          (Or.inr ⟨by omega, hG4⟩) ⟨fun hd => absurd hd hs, fun hc0 => by omega⟩
      · exact pas_fixture_spec hm _ 4 5 (by omega) (by omega) hG4 (by omega)
          (Or.inl (by show 4 + toNat L.ONE = 5; omega))
          (Or.inr ⟨by omega, hG5⟩) ⟨fun hd => absurd hd hs, fun hc0 => by omega⟩
  · rw [hpas, hl, List.append_assoc,
      List.getElem?_append_left (show 1 < (pasFixed L n).length by simp [pasFixed])]
    show some (⟨G_LESS_1 L n, L.ONE, NULLQ n, "", "Adds to infinity"⟩ : PAS n) = _
    rw [hL1]

/-- C8 on the small library (the group of order 251). -/
theorem generate_pointAddScalar_fixed_witness :
    ∃ out, generate toyLib 33 (toyMulG 33 1) 0 = some out ∧
      out.1.pas.length = 27 ∧
      (∀ f ∈ out.1.pas.take 17, ∃ k d, 0 < k ∧ k < 251 ∧ f.a = toyMulG 33 k ∧ toNat f.b = d ∧
        (f.e = NULLQ 33 ↔ (k + d) % 251 = 0) ∧
        ((k + d) % 251 ≠ 0 → f.e = toyMulG 33 ((k + d) % 251)) ∧
        (f.desc = "Adds to infinity" ↔ f.e = NULLQ 33)) ∧
      (out.1.pas[1]? = some ⟨toyMulG 33 (251 - 1), toyLib.ONE, NULLQ 33, "", "Adds to infinity"⟩ ∧
        toNat toyLib.ONE = 1) := by
  obtain ⟨out, h⟩ := Option.isSome_iff_exists.mp toy_generate_isSome
  exact ⟨out, h, generate_pointAddScalar_fixed toyLib 33 251 (toyMulG 33)
    toy_scalarMulModel (toyMulG 33 1) 0 out h⟩

/-! ## The invalid sets -/

theorem flatMap_pair_getElem? {α β : Type} (f g : β → α) (xs : List β) (k : Nat) :
    (xs.flatMap (fun x => [f x, g x]))[2 * k]? = xs[k]?.map f ∧
    (xs.flatMap (fun x => [f x, g x]))[2 * k + 1]? = xs[k]?.map g := by
  induction xs generalizing k with
  | nil => simp
  | cons x xs ih =>
    cases k with
    | zero => simp [List.flatMap_cons]
    | succ k =>
      have h2 : 2 * (k + 1) = 2 * k + 1 + 1 := by omega
      have h3 : 2 * (k + 1) + 1 = 2 * k + 1 + 1 + 1 := by omega
      rw [h3, h2, List.flatMap_cons]
      simp only [List.cons_append, List.nil_append, List.getElem?_cons_succ]
      exact ih k

theorem flatMap_pair_length {α β : Type} (f g : β → α) (xs : List β) :
    (xs.flatMap (fun x => [f x, g x])).length = 2 * xs.length := by
  induction xs with
  | nil => simp
  | cons x xs ih =>
    rw [List.flatMap_cons, List.length_append, ih, List.length_cons]
    simp only [List.length_cons, List.length_nil]
    omega

theorem pafAll_eq {σ : Type} (L : Lib σ) (n : Nat) :
    pafAll L n = (L.generateBadPoints n).flatMap (fun x =>
      [(⟨x.P, G_ONE L n, Arr.fill n 0, L.THROW_BAD_POINT, x.desc⟩ : PA n),
       ⟨G_ONE L n, x.P, Arr.fill n 0, L.THROW_BAD_POINT, x.desc⟩]) := by
  unfold pafAll
  rw [foldl_push_two
    (fun x : BadPoint n => (⟨x.P, G_ONE L n, Arr.fill n 0, L.THROW_BAD_POINT, x.desc⟩ : PA n))
    (fun x : BadPoint n => (⟨G_ONE L n, x.P, Arr.fill n 0, L.THROW_BAD_POINT, x.desc⟩ : PA n))]
  simp

theorem pasfAll_eq {σ : Type} (L : Lib σ) (n : Nat) :
    pasfAll L n =
      (L.generateBadPoints n).map (fun x =>
        (⟨x.P, L.ONE, Arr.fill n 0, L.THROW_BAD_POINT, x.desc⟩ : PAS n))
      ++ L.generateBadTweaks.map (fun x =>
        (⟨G_ONE L n, x.d, Arr.fill n 0, L.THROW_BAD_TWEAK, x.desc⟩ : PAS n)) := by
  unfold pasfAll
  rw [foldl_push_one
    (fun x : BadTweak => (⟨G_ONE L n, x.d, Arr.fill n 0, L.THROW_BAD_TWEAK, x.desc⟩ : PAS n)),
    foldl_push_one
    (fun x : BadPoint n => (⟨x.P, L.ONE, Arr.fill n 0, L.THROW_BAD_POINT, x.desc⟩ : PAS n))]
  simp

theorem pfsfAll_eq {σ : Type} (L : Lib σ) (n : Nat) :
    pfsfAll L n = L.generateBadPrivates.map (fun x =>
      (⟨x.d, Arr.fill n 0, L.THROW_BAD_PRIVATE, x.desc⟩ : PFS n)) := by
  unfold pfsfAll
  rw [foldl_push_one
    (fun x : BadPrivate => (⟨x.d, Arr.fill n 0, L.THROW_BAD_PRIVATE, x.desc⟩ : PFS n))]
  simp

theorem generateBadSigns_eq {σ : Type} (L : Lib σ) :
    generateBadSigns L = L.generateBadPrivates.map (fun x =>
      (⟨x.d, L.ONE, L.THROW_BAD_PRIVATE, x.desc⟩ : BS)) := by
  unfold generateBadSigns
  rw [foldl_push_one (fun x : BadPrivate => (⟨x.d, L.ONE, L.THROW_BAD_PRIVATE, x.desc⟩ : BS))]
  simp

theorem generateBadVerify_eq {σ : Type} (L : Lib σ) (n : Nat) (bv : List (BV n))
    (h : generateBadVerify L n = some bv) :
    bv = (L.generateBadPoints n).map (fun x =>
        (⟨x.P, L.THREE, L._signatureFromRS L.ONE L.ONE, L.THROW_BAD_POINT, x.desc⟩ : BV n))
      ++ L.generateBadSignatures.map (fun x =>
        (⟨G_ONE L n, L.THREE, x.P, L.THROW_BAD_SIGNATURE, x.desc⟩ : BV n)) := by
  simp only [generateBadVerify, assertThen_eq_some, Option.some.injEq] at h
  rw [← h.2, foldl_push_one
    (fun x : BadSignature =>
      (⟨(L._pointFromUInt32 n 1).1, L.THREE, x.P, L.THROW_BAD_SIGNATURE, x.desc⟩ : BV n)),
    foldl_push_one
    (fun x : BadPoint n =>
      (⟨x.P, L.THREE, L._signatureFromRS L.ONE L.ONE, L.THROW_BAD_POINT, x.desc⟩ : BV n))]
  simp [G_ONE]

/-! ## C6: the invalid `pointAdd` set -/

/-- C6: when `generate` runs to the end the invalid `pointAdd` set has exactly
`2 * |badPoints|` fixtures; for the `k`-th bad point `x`, fixture `2k` is
`(P = x.P, Q = 1*G)` and fixture `2k + 1` is `(P = 1*G, Q = x.P)`, both with the exception
`THROW_BAD_POINT`, the description `x.desc` and the empty expected value `{}`; and every
fixture of the set has a catalog bad point as one of its operands. -/
theorem generate_invalid_pointAdd {σ : Type} (L : Lib σ) (n : Nat) (G : Arr n) (rng : σ)
    (out : Gen n × σ) (h : generate L n G rng = some out) :
    out.1.paf.length = 2 * (L.generateBadPoints n).length ∧
    (∀ k x, (L.generateBadPoints n)[k]? = some x →
      out.1.paf[2 * k]? = some ⟨x.P, (L._pointFromUInt32 n 1).1, Arr.fill n 0,
        L.THROW_BAD_POINT, x.desc⟩ ∧
      out.1.paf[2 * k + 1]? = some ⟨(L._pointFromUInt32 n 1).1, x.P, Arr.fill n 0,
        L.THROW_BAD_POINT, x.desc⟩) ∧
    (∀ f ∈ out.1.paf, ∃ x ∈ L.generateBadPoints n, f.a = x.P ∨ f.b = x.P) := by
  obtain ⟨-, -, hpaf, -, -⟩ := generate_shape L n G rng out h
  rw [hpaf, pafAll_eq]
  refine ⟨flatMap_pair_length _ _ _, ?_, ?_⟩
  · intro k x hx
    obtain ⟨h0, h1⟩ := flatMap_pair_getElem?
      (fun x : BadPoint n =>
        (⟨x.P, G_ONE L n, Arr.fill n 0, L.THROW_BAD_POINT, x.desc⟩ : PA n))
      (fun x : BadPoint n =>
        (⟨G_ONE L n, x.P, Arr.fill n 0, L.THROW_BAD_POINT, x.desc⟩ : PA n))
      (L.generateBadPoints n) k
    rw [h0, h1, hx]
    exact ⟨rfl, rfl⟩
  · intro f hf
    obtain ⟨x, hx, hfx⟩ := List.mem_flatMap.mp hf
    refine ⟨x, hx, ?_⟩
    simp only [List.mem_cons, List.mem_singleton, List.not_mem_nil, or_false] at hfx
    rcases hfx with hfx | hfx
    · left; rw [hfx]
    · right; rw [hfx]

/-- C6 on the small library, whose catalog has two bad points. -/
theorem generate_invalid_pointAdd_witness :
    ∃ out, generate toyLib 33 (toyMulG 33 1) 0 = some out ∧
      out.1.paf.length = 2 * (toyLib.generateBadPoints 33).length ∧
      (∀ k x, (toyLib.generateBadPoints 33)[k]? = some x →
        out.1.paf[2 * k]? = some ⟨x.P, (toyLib._pointFromUInt32 33 1).1, Arr.fill 33 0,
          toyLib.THROW_BAD_POINT, x.desc⟩ ∧
        out.1.paf[2 * k + 1]? = some ⟨(toyLib._pointFromUInt32 33 1).1, x.P, Arr.fill 33 0,
          toyLib.THROW_BAD_POINT, x.desc⟩) ∧
      (∀ f ∈ out.1.paf, ∃ x ∈ toyLib.generateBadPoints 33, f.a = x.P ∨ f.b = x.P) := by
  obtain ⟨out, h⟩ := Option.isSome_iff_exists.mp toy_generate_isSome
  exact ⟨out, h, generate_invalid_pointAdd toyLib 33 (toyMulG 33 1) 0 out h⟩

/-! ## C5: catalog coverage -/

/-- C5: when `generate` and `generateBadVerify` run to the end, every entry of each catalog
is an input of a fixture of an invalid set, with its description and with the exception of
its catalog (`THROW_BAD_PRIVATE` for bad privates, `THROW_BAD_POINT` for bad points,
`THROW_BAD_SIGNATURE` for bad signatures, `THROW_BAD_TWEAK` for bad tweaks); conversely
every fixture of an invalid set (`paf`, `pasf`, `pfsf`, `generateBadSigns`,
`generateBadVerify`) is built from one catalog entry, its other inputs being the fixed
values `1*G`, the scalar `ONE`, the hash `ONE` (sign) or `THREE` (verify) and the
signature `(r = 1, s = 1)`. -/
theorem catalog_coverage {σ : Type} (L : Lib σ) (n m : Nat) (G : Arr n) (rng : σ)
    (out : Gen n × σ) (bv : List (BV m)) (h : generate L n G rng = some out)
    (hv : generateBadVerify L m = some bv) :
    (∀ x ∈ L.generateBadPrivates,
      (⟨x.d, Arr.fill n 0, L.THROW_BAD_PRIVATE, x.desc⟩ : PFS n) ∈ out.1.pfsf ∧
      (⟨x.d, L.ONE, L.THROW_BAD_PRIVATE, x.desc⟩ : BS) ∈ generateBadSigns L) ∧
    (∀ x ∈ L.generateBadPoints n,
      (⟨x.P, (L._pointFromUInt32 n 1).1, Arr.fill n 0, L.THROW_BAD_POINT, x.desc⟩ : PA n)
        ∈ out.1.paf ∧
      (⟨(L._pointFromUInt32 n 1).1, x.P, Arr.fill n 0, L.THROW_BAD_POINT, x.desc⟩ : PA n)
        ∈ out.1.paf ∧
      (⟨x.P, L.ONE, Arr.fill n 0, L.THROW_BAD_POINT, x.desc⟩ : PAS n) ∈ out.1.pasf) ∧
    (∀ x ∈ L.generateBadPoints m,
      (⟨x.P, L.THREE, L._signatureFromRS L.ONE L.ONE, L.THROW_BAD_POINT, x.desc⟩ : BV m) ∈ bv) ∧
    (∀ x ∈ L.generateBadSignatures,
      (⟨(L._pointFromUInt32 m 1).1, L.THREE, x.P, L.THROW_BAD_SIGNATURE, x.desc⟩ : BV m) ∈ bv) ∧
    (∀ x ∈ L.generateBadTweaks,
      (⟨(L._pointFromUInt32 n 1).1, x.d, Arr.fill n 0, L.THROW_BAD_TWEAK, x.desc⟩ : PAS n)
        ∈ out.1.pasf) ∧
    (∀ f ∈ out.1.paf, ∃ x ∈ L.generateBadPoints n,
      f = ⟨x.P, (L._pointFromUInt32 n 1).1, Arr.fill n 0, L.THROW_BAD_POINT, x.desc⟩ ∨
      f = ⟨(L._pointFromUInt32 n 1).1, x.P, Arr.fill n 0, L.THROW_BAD_POINT, x.desc⟩) ∧
    (∀ f ∈ out.1.pasf,
      (∃ x ∈ L.generateBadPoints n,
        f = ⟨x.P, L.ONE, Arr.fill n 0, L.THROW_BAD_POINT, x.desc⟩) ∨
      (∃ x ∈ L.generateBadTweaks,
        f = ⟨(L._pointFromUInt32 n 1).1, x.d, Arr.fill n 0, L.THROW_BAD_TWEAK, x.desc⟩)) ∧
    (∀ f ∈ out.1.pfsf, ∃ x ∈ L.generateBadPrivates,
      f = ⟨x.d, Arr.fill n 0, L.THROW_BAD_PRIVATE, x.desc⟩) ∧
    (∀ f ∈ generateBadSigns L, ∃ x ∈ L.generateBadPrivates,
      f = ⟨x.d, L.ONE, L.THROW_BAD_PRIVATE, x.desc⟩) ∧
    (∀ f ∈ bv,
      (∃ x ∈ L.generateBadPoints m,
        f = ⟨x.P, L.THREE, L._signatureFromRS L.ONE L.ONE, L.THROW_BAD_POINT, x.desc⟩) ∨
      (∃ x ∈ L.generateBadSignatures,
        f = ⟨(L._pointFromUInt32 m 1).1, L.THREE, x.P, L.THROW_BAD_SIGNATURE, x.desc⟩)) := by
  obtain ⟨-, -, hpaf, hpasf, hpfsf⟩ := generate_shape L n G rng out h
  have hbv := generateBadVerify_eq L m bv hv
  rw [hpaf, hpasf, hpfsf, hbv, pafAll_eq, pasfAll_eq, pfsfAll_eq, generateBadSigns_eq]
  refine ⟨?_, ?_, ?_, ?_, ?_, ?_, ?_, ?_, ?_, ?_⟩
  · intro x hx
    exact ⟨List.mem_map.mpr ⟨x, hx, rfl⟩, List.mem_map.mpr ⟨x, hx, rfl⟩⟩
  · intro x hx
    refine ⟨List.mem_flatMap.mpr ⟨x, hx, ?_⟩, List.mem_flatMap.mpr ⟨x, hx, ?_⟩,
      List.mem_append.mpr (Or.inl (List.mem_map.mpr ⟨x, hx, rfl⟩))⟩
    · exact List.mem_cons_self _ _
    · exact List.mem_cons_of_mem _ (List.mem_cons_self _ _)
  · intro x hx
    exact List.mem_append.mpr (Or.inl (List.mem_map.mpr ⟨x, hx, rfl⟩))
  · intro x hx
    exact List.mem_append.mpr (Or.inr (List.mem_map.mpr ⟨x, hx, rfl⟩))
  · intro x hx
    exact List.mem_append.mpr (Or.inr (List.mem_map.mpr ⟨x, hx, rfl⟩))
  · intro f hf
    obtain ⟨x, hx, hfx⟩ := List.mem_flatMap.mp hf
    simp only [List.mem_cons, List.mem_singleton, List.not_mem_nil, or_false] at hfx
    exact ⟨x, hx, hfx⟩
  · intro f hf
    rcases List.mem_append.mp hf with hf | hf
    · obtain ⟨x, hx, hfx⟩ := List.mem_map.mp hf
      exact Or.inl ⟨x, hx, hfx.symm⟩
    · obtain ⟨x, hx, hfx⟩ := List.mem_map.mp hf
      exact Or.inr ⟨x, hx, hfx.symm⟩
  · intro f hf
    obtain ⟨x, hx, hfx⟩ := List.mem_map.mp hf
    exact ⟨x, hx, hfx.symm⟩
  · intro f hf
    obtain ⟨x, hx, hfx⟩ := List.mem_map.mp hf
    exact ⟨x, hx, hfx.symm⟩
  · intro f hf
    rcases List.mem_append.mp hf with hf | hf
    · obtain ⟨x, hx, hfx⟩ := List.mem_map.mp hf
      exact Or.inl ⟨x, hx, hfx.symm⟩
    · obtain ⟨x, hx, hfx⟩ := List.mem_map.mp hf
      exact Or.inr ⟨x, hx, hfx.symm⟩

/-- C5 on the small library, with `A` the 33-byte arrays for both generators. -/
theorem catalog_coverage_witness :
    ∃ (out : Gen 33 × Nat) (bv : List (BV 33)),
      generate toyLib 33 (toyMulG 33 1) 0 = some out ∧ generateBadVerify toyLib 33 = some bv ∧
      ((∀ x ∈ toyLib.generateBadPrivates,
        (⟨x.d, Arr.fill 33 0, toyLib.THROW_BAD_PRIVATE, x.desc⟩ : PFS 33) ∈ out.1.pfsf ∧
        (⟨x.d, toyLib.ONE, toyLib.THROW_BAD_PRIVATE, x.desc⟩ : BS) ∈ generateBadSigns toyLib) ∧
      (∀ x ∈ toyLib.generateBadPoints 33,
        (⟨x.P, (toyLib._pointFromUInt32 33 1).1, Arr.fill 33 0, toyLib.THROW_BAD_POINT, x.desc⟩ : PA 33)
          ∈ out.1.paf ∧
        (⟨(toyLib._pointFromUInt32 33 1).1, x.P, Arr.fill 33 0, toyLib.THROW_BAD_POINT, x.desc⟩ : PA 33)
          ∈ out.1.paf ∧
        (⟨x.P, toyLib.ONE, Arr.fill 33 0, toyLib.THROW_BAD_POINT, x.desc⟩ : PAS 33) ∈ out.1.pasf) ∧
      (∀ x ∈ toyLib.generateBadPoints 33,
        (⟨x.P, toyLib.THREE, toyLib._signatureFromRS toyLib.ONE toyLib.ONE, toyLib.THROW_BAD_POINT, x.desc⟩ : BV 33) ∈ bv) ∧
      (∀ x ∈ toyLib.generateBadSignatures,
        (⟨(toyLib._pointFromUInt32 33 1).1, toyLib.THREE, x.P, toyLib.THROW_BAD_SIGNATURE, x.desc⟩ : BV 33) ∈ bv) ∧
      (∀ x ∈ toyLib.generateBadTweaks,
        (⟨(toyLib._pointFromUInt32 33 1).1, x.d, Arr.fill 33 0, toyLib.THROW_BAD_TWEAK, x.desc⟩ : PAS 33)
          ∈ out.1.pasf) ∧
      (∀ f ∈ out.1.paf, ∃ x ∈ toyLib.generateBadPoints 33,
        f = ⟨x.P, (toyLib._pointFromUInt32 33 1).1, Arr.fill 33 0, toyLib.THROW_BAD_POINT, x.desc⟩ ∨
        f = ⟨(toyLib._pointFromUInt32 33 1).1, x.P, Arr.fill 33 0, toyLib.THROW_BAD_POINT, x.desc⟩) ∧
      (∀ f ∈ out.1.pasf,
        (∃ x ∈ toyLib.generateBadPoints 33,
          f = ⟨x.P, toyLib.ONE, Arr.fill 33 0, toyLib.THROW_BAD_POINT, x.desc⟩) ∨
        (∃ x ∈ toyLib.generateBadTweaks,
          f = ⟨(toyLib._pointFromUInt32 33 1).1, x.d, Arr.fill 33 0, toyLib.THROW_BAD_TWEAK, x.desc⟩)) ∧
      (∀ f ∈ out.1.pfsf, ∃ x ∈ toyLib.generateBadPrivates,
        f = ⟨x.d, Arr.fill 33 0, toyLib.THROW_BAD_PRIVATE, x.desc⟩) ∧
      (∀ f ∈ generateBadSigns toyLib, ∃ x ∈ toyLib.generateBadPrivates,
        f = ⟨x.d, toyLib.ONE, toyLib.THROW_BAD_PRIVATE, x.desc⟩) ∧
      (∀ f ∈ bv,
        (∃ x ∈ toyLib.generateBadPoints 33,
          f = ⟨x.P, toyLib.THREE, toyLib._signatureFromRS toyLib.ONE toyLib.ONE, toyLib.THROW_BAD_POINT, x.desc⟩) ∨
        (∃ x ∈ toyLib.generateBadSignatures,
          f = ⟨(toyLib._pointFromUInt32 33 1).1, toyLib.THREE, x.P, toyLib.THROW_BAD_SIGNATURE, x.desc⟩))) := by
  obtain ⟨out, h⟩ := Option.isSome_iff_exists.mp toy_generate_isSome
  have hs : (generateBadVerify toyLib 33).isSome = true := by decide
  obtain ⟨bv, hv⟩ := Option.isSome_iff_exists.mp hs
  exact ⟨out, bv, h, hv, catalog_coverage toyLib 33 33 (toyMulG 33 1) 0 out bv h hv⟩

/-! ## C7: the `pointCompress` table -/

theorem forLoop_push_indexed {α : Type} (body : Nat → List α → Option (List α))
    (g : Nat → List α) (hb : ∀ i s t, body i s = some t → t = s ++ g i) :
    ∀ (k : Nat) (s t : List α), forLoop body k s = some t →
      t = s ++ (List.range k).flatMap g := by
  intro k
  induction k with
  | zero =>
    intro s t h
    simp only [forLoop, Option.some.injEq] at h
    simp [h]
  | succ k ih =>
    intro s t h
    simp only [forLoop] at h
    cases hk : forLoop body k s with
    | none => rw [hk] at h; exact absurd h (by simp)
    | some v =>
      rw [hk] at h
      rw [hb k v t h, ih s v hk, List.range_succ, List.flatMap_append, List.append_assoc]
      simp

theorem pcBody_eq_some {σ : Type} (L : Lib σ) (k : Nat) (pc t : List PC)
    (h : pcBody L k pc = some t) :
    t = pc ++ pcFour (L._pointFromUInt32 33 (k + 1)).1 (L._pointFromUInt32 65 (k + 1)).1 := by
  simp only [pcBody, assertThen_eq_some, Option.some.injEq] at h
  rw [← h.2]
  rfl

/-- The table of `generatePC`: the eight fixed fixtures, then four per `i = 1..9`. -/
theorem generatePC_eq_some {σ : Type} (L : Lib σ) (pc : List PC) (h : generatePC L = some pc) :
    pc = pcFixed L ++ (List.range 9).flatMap (fun k =>
      pcFour (L._pointFromUInt32 33 (k + 1)).1 (L._pointFromUInt32 65 (k + 1)).1) :=
  forLoop_push_indexed (pcBody L) _ (fun k s t hb => pcBody_eq_some L k s t hb) 9 _ pc h

/-- Under the encoding model every fixture of the table is a zero buffer with an empty
expected value, or one of the four fixtures of a point `q` among `g`, `p 1`, .., `p 9`. -/
theorem generatePC_mem {σ : Type} (L : Lib σ) {Pt : Type} (c : Pt → Arr 33) (u : Pt → Arr 65)
    (g : Pt) (p : Nat → Pt) (hm : EncodingModel L c u g p) (pc : List PC)
    (h : generatePC L = some pc) (f : PC) :
    f ∈ pc ↔
      (f.e = [] ∧ (f.a = List.replicate 33 0 ∨ f.a = List.replicate 65 0)) ∨
      ∃ q : Pt, (q = g ∨ ∃ i, 1 ≤ i ∧ i ≤ 9 ∧ q = p i) ∧ f ∈ pcFour (c q) (u q) := by
  rw [generatePC_eq_some L pc h, List.mem_append, List.mem_flatMap]
  constructor
  · rintro (hf | ⟨k, hk, hf⟩)
    · simp only [pcFixed, hm.generator, hm.generatorc, List.mem_cons, List.mem_singleton,
        List.not_mem_nil, or_false] at hf
      rcases hf with hf | hf | hf | hf | hf | hf | hf | hf
      · exact Or.inr ⟨g, Or.inl rfl, by rw [hf]; simp [pcFour]⟩
      · exact Or.inr ⟨g, Or.inl rfl, by rw [hf]; simp [pcFour]⟩
      · exact Or.inr ⟨g, Or.inl rfl, by rw [hf]; simp [pcFour]⟩
      · exact Or.inr ⟨g, Or.inl rfl, by rw [hf]; simp [pcFour]⟩
      · exact Or.inl (by rw [hf]; exact ⟨rfl, Or.inl rfl⟩)
      · exact Or.inl (by rw [hf]; exact ⟨rfl, Or.inl rfl⟩)
      · exact Or.inl (by rw [hf]; exact ⟨rfl, Or.inr rfl⟩)
      · exact Or.inl (by rw [hf]; exact ⟨rfl, Or.inr rfl⟩)
    · have hk9 : k < 9 := List.mem_range.mp hk
      rw [hm.fromUInt32_c (k + 1) (by omega) (by omega),
        hm.fromUInt32_u (k + 1) (by omega) (by omega)] at hf
      exact Or.inr ⟨p (k + 1), Or.inr ⟨k + 1, by omega, by omega, rfl⟩, hf⟩
  · rintro (⟨he, ha⟩ | ⟨q, hq, hf⟩)
    · left
      obtain ⟨a, b, e⟩ := f
      simp only at he ha
      subst he
      cases b <;> rcases ha with ha | ha <;> subst ha <;> simp [pcFixed]
    · rcases hq with hq | ⟨i, hi1, hi9, hq⟩
      · left
        subst hq
        simp only [pcFour, List.mem_cons, List.mem_singleton, List.not_mem_nil, or_false] at hf
        rcases hf with hf | hf | hf | hf <;> rw [hf] <;>
          simp [pcFixed, hm.generator, hm.generatorc]
      · right
        refine ⟨i - 1, List.mem_range.mpr (by omega), ?_⟩
        have hi : i - 1 + 1 = i := by omega
        rw [hi, hm.fromUInt32_c i hi1 hi9, hm.fromUInt32_u i hi1 hi9, ← hq]
        exact hf

theorem pcFour_mem {x : Arr 33} {y : Arr 65} {f : PC} (hf : f ∈ pcFour x y) :
    (f.a = vectorify x ∨ f.a = vectorify y) ∧
    f.e = (if f.b = true then vectorify x else vectorify y) := by
  simp only [pcFour, List.mem_cons, List.mem_singleton, List.not_mem_nil, or_false] at hf
  rcases hf with hf | hf | hf | hf <;> rw [hf] <;> simp

theorem vectorify_length {n : Nat} (a : Arr n) : (vectorify a).length = n := a.property

theorem vectorify_ne_zero {n : Nat} (a : Arr n) (k : Nat) (h : n = k → a ≠ Arr.fill n 0) :
    vectorify a ≠ List.replicate k 0 := by
  intro hv
  have hl : n = k := by
    rw [← vectorify_length a, hv, List.length_replicate]
  subst hl
  exact h rfl (Subtype.ext hv)

/-- Two fixtures of points with equal inputs belong to the same point. -/
theorem encoding_same_point {σ : Type} {L : Lib σ} {Pt : Type} {c : Pt → Arr 33}
    {u : Pt → Arr 65} {g : Pt} {p : Nat → Pt} (hm : EncodingModel L c u g p) (q1 q2 : Pt)
    (a : uint8_t_vec) (h1 : a = vectorify (c q1) ∨ a = vectorify (u q1))
    (h2 : a = vectorify (c q2) ∨ a = vectorify (u q2)) : q1 = q2 := by
  rcases h1 with h1 | h1 <;> rcases h2 with h2 | h2
  · exact hm.c_inj q1 q2 (Subtype.ext (h1.symm.trans h2))
  · have hl := congrArg List.length (h1.symm.trans h2)
    rw [vectorify_length, vectorify_length] at hl
    omega
  · have hl := congrArg List.length (h1.symm.trans h2)
    rw [vectorify_length, vectorify_length] at hl
    omega
  · exact hm.u_inj q1 q2 (Subtype.ext (h1.symm.trans h2))

theorem encoding_ne_zero {σ : Type} {L : Lib σ} {Pt : Type} {c : Pt → Arr 33}
    {u : Pt → Arr 65} {g : Pt} {p : Nat → Pt} (hm : EncodingModel L c u g p) (q : Pt)
    (a : uint8_t_vec) (h1 : a = vectorify (c q) ∨ a = vectorify (u q))
    (h2 : a = List.replicate 33 0 ∨ a = List.replicate 65 0) : False := by
  rcases h1 with h1 | h1 <;> rcases h2 with h2 | h2
  · exact vectorify_ne_zero (c q) 33 (fun _ => hm.c_ne_zero q) (h1.symm.trans h2)
  · exact vectorify_ne_zero (c q) 65 (fun hk => absurd hk (by decide)) (h1.symm.trans h2)
  · exact vectorify_ne_zero (u q) 33 (fun hk => absurd hk (by decide)) (h1.symm.trans h2)
  · exact vectorify_ne_zero (u q) 65 (fun _ => hm.u_ne_zero q) (h1.symm.trans h2)

/-- C7: under the encoding model, when `generatePC` runs to the end its table is a well
defined map from (input, compress flag) to expected, and for every fixture whose expected
value is not empty, with input `P` an encoding of a point `q`: the table has an entry
`(P, true)` with a value `C`, an entry `(C, false)` whose expected value is the
uncompressed encoding `u q` of the point, and this is also the expected value of the
entry `(P, false)`. -/
theorem generatePC_round_trip {σ : Type} (L : Lib σ) {Pt : Type} (c : Pt → Arr 33)
    (u : Pt → Arr 65) (g : Pt) (p : Nat → Pt) (hm : EncodingModel L c u g p) (pc : List PC)
    (h : generatePC L = some pc) :
    (∀ f1 ∈ pc, ∀ f2 ∈ pc, f1.a = f2.a → f1.b = f2.b → f1.e = f2.e) ∧
    (∀ f ∈ pc, f.e ≠ [] → ∃ q : Pt, (f.a = vectorify (c q) ∨ f.a = vectorify (u q)) ∧
      ∃ C : uint8_t_vec, (⟨f.a, true, C⟩ : PC) ∈ pc ∧
        (⟨C, false, vectorify (u q)⟩ : PC) ∈ pc ∧
        (⟨f.a, false, vectorify (u q)⟩ : PC) ∈ pc) := by
  constructor
  · intro f1 hf1 f2 hf2 ha hb
    rcases (generatePC_mem L c u g p hm pc h f1).mp hf1 with ⟨he1, hz1⟩ | ⟨q1, -, hq1⟩
    · rcases (generatePC_mem L c u g p hm pc h f2).mp hf2 with ⟨he2, -⟩ | ⟨q2, -, hq2⟩
      · rw [he1, he2]
      · exact absurd (encoding_ne_zero hm q2 f2.a (pcFour_mem hq2).1 (ha ▸ hz1)) id
    · rcases (generatePC_mem L c u g p hm pc h f2).mp hf2 with ⟨-, hz2⟩ | ⟨q2, -, hq2⟩
      · exact absurd (encoding_ne_zero hm q1 f1.a (pcFour_mem hq1).1 (ha ▸ hz2)) id
      · have hq : q1 = q2 :=
          encoding_same_point hm q1 q2 f1.a (pcFour_mem hq1).1 (ha ▸ (pcFour_mem hq2).1)
        rw [(pcFour_mem hq1).2, (pcFour_mem hq2).2, hq, hb]
  · intro f hf he
    rcases (generatePC_mem L c u g p hm pc h f).mp hf with ⟨he0, -⟩ | ⟨q, hq, hfq⟩
    · exact absurd he0 he
    · have hin : ∀ f0 : PC, f0 ∈ pcFour (c q) (u q) → f0 ∈ pc := fun f0 h0 =>
        (generatePC_mem L c u g p hm pc h f0).mpr (Or.inr ⟨q, hq, h0⟩)
      refine ⟨q, (pcFour_mem hfq).1, vectorify (c q), ?_, ?_, ?_⟩
      · rcases (pcFour_mem hfq).1 with ha | ha <;> rw [ha] <;> apply hin <;> simp [pcFour]
      · apply hin; simp [pcFour]
      · rcases (pcFour_mem hfq).1 with ha | ha <;> rw [ha] <;> apply hin <;> simp [pcFour]

theorem toy_encodingModel : EncodingModel toyLib
    (fun q : Fin 251 => toyMulG 33 q.val) (fun q : Fin 251 => toyMulG 65 q.val)
    (1 : Fin 251) (fun i => (⟨i % 251, Nat.mod_lt _ (by decide)⟩ : Fin 251)) where
  c_inj := fun a b hab => Fin.ext (toyMulG_inj (by decide) a.val b.val a.isLt b.isLt hab)
  u_inj := fun a b hab => Fin.ext (toyMulG_inj (by decide) a.val b.val a.isLt b.isLt hab)
  c_ne_zero := by
    intro a hz
    have hx := congrArg Fin.val (fill_inj (show 0 < 33 by decide) _ _ hz)
    simp at hx
  u_ne_zero := by
    intro a hz
    have hx := congrArg Fin.val (fill_inj (show 0 < 65 by decide) _ _ hz)
    simp at hx
  generatorc := rfl
  generator := rfl
  fromUInt32_c := by
    intro i h1 h9
    show (toyMulG 33 i, decide (0 < i ∧ i < 251)) = (toyMulG 33 (i % 251), true)
    rw [Nat.mod_eq_of_lt (by omega), decide_eq_true (And.intro (by omega) (by omega))]
  fromUInt32_u := by
    intro i h1 h9
    show (toyMulG 65 i, decide (0 < i ∧ i < 251)) = (toyMulG 65 (i % 251), true)
    rw [Nat.mod_eq_of_lt (by omega), decide_eq_true (And.intro (by omega) (by omega))]

/-- C7 on the small library, with the residues modulo 251 as points. -/
theorem generatePC_round_trip_witness :
    ∃ pc, generatePC toyLib = some pc ∧
      (∀ f1 ∈ pc, ∀ f2 ∈ pc, f1.a = f2.a → f1.b = f2.b → f1.e = f2.e) ∧
      (∀ f ∈ pc, f.e ≠ [] → ∃ q : Fin 251,
        (f.a = vectorify (toyMulG 33 q.val) ∨ f.a = vectorify (toyMulG 65 q.val)) ∧
        ∃ C : uint8_t_vec, (⟨f.a, true, C⟩ : PC) ∈ pc ∧
          (⟨C, false, vectorify (toyMulG 65 q.val)⟩ : PC) ∈ pc ∧
          (⟨f.a, false, vectorify (toyMulG 65 q.val)⟩ : PC) ∈ pc) := by
  have hs : (generatePC toyLib).isSome = true := by decide
  obtain ⟨pc, h⟩ := Option.isSome_iff_exists.mp hs
  exact ⟨pc, h, generatePC_round_trip toyLib _ _ _ _ toy_encodingModel pc h⟩

end TinySecp
